import Mathlib

/-!
Shallow embedding of the keybinding resolution and conflict-analysis engine of
the Keymap-visualizer add-on (src/__init__.py, plus the legacy v09 version in
src/unnamed/part_000).  Python strings are modelled by `String`, Python lists
by `List`, Python dicts that are iterated in insertion order by ordered
association lists, and Python sets by lists used only through membership.
ASCII-only text is assumed (Python `str.lower`, `str.isdigit`, `str.strip`
and `str.title` agree with the ASCII transcriptions below on such text).
-/

set_option maxRecDepth 4000

-- ===== generic Python-string helpers =====

/-- Python `needle in hay` (substring test) on the character lists. -/
def containsAux (needle : List Char) : List Char → Bool
  | [] => needle.isEmpty
  | c :: t => needle.isPrefixOf (c :: t) || containsAux needle t

/-- Python `sub in s` substring containment. -/
def strContains (s sub : String) : Bool := containsAux sub.data s.data

/-- Python `s.startswith(p)`. -/
def strStarts (s p : String) : Bool := p.data.isPrefixOf s.data

/-- Python `s.lower()` (ASCII). -/
def pyLower (s : String) : String := ⟨s.data.map Char.toLower⟩

/-- Python truthiness fallback `s or d` for strings. -/
def pyOr (s d : String) : String := if s = "" then d else s

/-- Python `s.isdigit()` (ASCII digits). -/
def pyIsDigit (s : String) : Bool := !s.data.isEmpty && s.data.all Char.isDigit

/-- Python `label[1:]`. -/
def stringDrop1 (s : String) : String := ⟨s.data.drop 1⟩

/-- ASCII whitespace, for Python `str.strip`. -/
def isSpaceChar (c : Char) : Bool := c = ' ' || c = '\t' || c = '\n' || c = '\r'

/-- Python `s.strip()` (ASCII whitespace). -/
def pyStrip (s : String) : String :=
  ⟨((s.data.dropWhile isSpaceChar).reverse.dropWhile isSpaceChar).reverse⟩

/-- Helper for Python `s.title()`: the Bool records whether the previous
character was alphabetic. -/
def titleAux : Bool → List Char → List Char
  | _, [] => []
  | prevAlpha, c :: t =>
    (if c.isAlpha then (if prevAlpha then c.toLower else c.toUpper) else c)
      :: titleAux c.isAlpha t

/-- Python `s.title()` (ASCII). -/
def pyTitle (s : String) : String := ⟨titleAux false s.data⟩

/-- Python `s.replace("_", " ")` (single-character pattern). -/
def underscoresToSpaces (s : String) : String :=
  ⟨s.data.map (fun c => if c = '_' then ' ' else c)⟩

/-- Code-point comparison of strings, as Python string `<=` on ASCII. -/
def charsLe : List Char → List Char → Bool
  | [], _ => true
  | _ :: _, [] => false
  | a :: as, b :: bs =>
    if a.val < b.val then true else if b.val < a.val then false else charsLe as bs

/-- String order used by Python `sorted`. -/
def strLe (a b : String) : Bool := charsLe a.data b.data

/-- Insertion into a sorted list of strings. -/
def insertStr (x : String) : List String → List String
  | [] => [x]
  | y :: ys => if strLe x y then x :: y :: ys else y :: insertStr x ys

/-- Ascending sort of a list of strings, modelling Python `sorted`. -/
def sortStrings (l : List String) : List String := l.foldr insertStr []

/-- First-occurrence deduplication, modelling iteration over a Python set
built from a list (order is then canonicalised where needed by sorting). -/
def dedupList {α : Type} [DecidableEq α] (l : List α) : List α :=
  l.foldl (fun acc s => if s ∈ acc then acc else acc ++ [s]) []

/-- First-occurrence deduplication of strings. -/
def dedupStrings (l : List String) : List String := dedupList l

/-- Python `sorted(set(a) | set(b))`. -/
def mergeKcs (a b : List String) : List String := sortStrings (dedupStrings (a ++ b))

/-- Python `", ".join(l)`. -/
def joinCommaSpace : List String → String
  | [] => ""
  | [x] => x
  | x :: y :: t => x ++ ", " ++ joinCommaSpace (y :: t)

/-- Association-list lookup (Python dict `get`). -/
def lookupAssoc {α : Type} (l : List (String × α)) (k : String) : Option α :=
  (l.find? (fun p => p.fst == k)).map (fun p => p.snd)

-- ===== data model (Blender keymap objects as seen by the add-on) =====

/-- One `bpy` keymap item (a binding entry). `type` is the raw key token,
`anyMod` is the `any` flag, `propvalue` is used only for modal items. -/
structure KeymapItem where
  idname : String
  name : String
  type : String
  ctrl : Bool
  shift : Bool
  alt : Bool
  oskey : Bool
  anyMod : Bool
  value : String
  key_modifier : String
  active : Bool
  propvalue : String
deriving DecidableEq, Repr

/-- One `bpy` keymap (a binding group). -/
structure Keymap where
  name : String
  space_type : String
  is_modal : Bool
  keymap_items : List KeymapItem
deriving DecidableEq, Repr

/-- One `bpy` keyconfig (a configuration layer). -/
structure Keyconfig where
  name : String
  keymaps : List Keymap
deriving DecidableEq, Repr

/-- The window manager's keyconfig slots: `wm.keyconfigs.default / user /
addon / active`, plus the extra keyconfigs yielded by iterating
`wm.keyconfigs`. -/
structure WM where
  kcDefault : Option Keyconfig
  kcUser : Option Keyconfig
  kcAddon : Option Keyconfig
  kcActive : Option Keyconfig
  extra : List Keyconfig
deriving DecidableEq, Repr

-- ===== normalize_key_types =====

/-- The `special` table of `normalize_key_types`. -/
def special_table : List (String × List String) :=
  [("TAB", ["TAB"]), ("ESC", ["ESC"]), ("SPACE", ["SPACE"]),
   ("BACK_SPACE", ["BACK_SPACE"]), ("RETURN", ["RET"]), ("ENTER", ["RET"]),
   ("DELETE", ["DEL"]), ("INSERT", ["INSERT"]), ("HOME", ["HOME"]),
   ("END", ["END"]), ("PAGE_UP", ["PAGE_UP"]), ("PAGE_DOWN", ["PAGE_DOWN"])]

/-- The `num_map` table of `normalize_key_types`. -/
def num_map : List (String × String) :=
  [("0", "ZERO"), ("1", "ONE"), ("2", "TWO"), ("3", "THREE"), ("4", "FOUR"),
   ("5", "FIVE"), ("6", "SIX"), ("7", "SEVEN"), ("8", "EIGHT"), ("9", "NINE")]

/-- The `punct` table of `normalize_key_types`. -/
def punct_table : List (String × List String) :=
  [("`", ["ACCENT_GRAVE", "GRAVE"]), ("-", ["MINUS"]), ("=", ["EQUAL"]),
   ("[", ["LEFT_BRACKET"]), ("]", ["RIGHT_BRACKET"]), ("\\", ["BACK_SLASH"]),
   (";", ["SEMI_COLON"]), ("'", ["QUOTE"]), (",", ["COMMA"]),
   (".", ["PERIOD"]), ("/", ["SLASH"]), ("+", ["PLUS"])]

/-- `normalize_key_types` from src/__init__.py. -/
def normalize_key_types (label : String) : List String :=
  if strStarts label "F" && pyIsDigit (stringDrop1 label) then [label]
  else if label = "UP" || label = "DOWN" || label = "LEFT" || label = "RIGHT" then
    [label ++ "_ARROW"]
  else match lookupAssoc special_table label with
  | some v => v
  | none =>
    match lookupAssoc num_map label with
    | some v => [v]
    | none =>
      match lookupAssoc punct_table label with
      | some v => v
      | none => if strStarts label "NUMPAD_" then [label] else [label]

/-- A label that matches none of the tables of `normalize_key_types`
(not an F-key, arrow, special, digit, punctuation, or NUMPAD_ prefix). -/
def unmapped_label (label : String) : Bool :=
  !(strStarts label "F" && pyIsDigit (stringDrop1 label)) &&
  !(label = "UP" || label = "DOWN" || label = "LEFT" || label = "RIGHT") &&
  (lookupAssoc special_table label).isNone &&
  (lookupAssoc num_map label).isNone &&
  (lookupAssoc punct_table label).isNone &&
  !(strStarts label "NUMPAD_")

-- ===== _modifiers_match =====

/-- `_modifiers_match` from src/__init__.py. -/
def _modifiers_match (kmi : KeymapItem) (ctrl shift alt cmd : Bool) : Bool :=
  if kmi.anyMod then !(ctrl || shift || alt || cmd)
  else kmi.ctrl == ctrl && kmi.shift == shift && kmi.alt == alt && kmi.oskey == cmd

-- ===== is_relevant_keymap (current and legacy v09) =====

/-- `is_relevant_keymap` from src/__init__.py. -/
def is_relevant_keymap (km : Keymap) (editor : String) : Bool :=
  let space := pyOr km.space_type "EMPTY"
  let name := pyLower km.name
  if editor = "UV" then (space = "IMAGE_EDITOR") && strContains name "uv"
  else if strContains name "uv" && editor ≠ "UV" then false
  else if space = editor then true
  else false

/-- The `match_map` table of the legacy v09 `is_relevant_keymap`
(src/unnamed/part_000). -/
def match_map_v09 : List (String × List String) :=
  [("VIEW_3D", ["3D View", "Object Mode", "Mesh", "Sculpt", "Pose", "Armature",
                "Weight Paint", "Vertex Paint", "Tool:", "PME"]),
   ("GRAPH_EDITOR", ["Graph Editor", "F-Curve", "Drivers"]),
   ("DOPESHEET_EDITOR", ["Dopesheet", "Action", "Grease Pencil", "Shape Key"]),
   ("NLA_EDITOR", ["NLA"]),
   ("IMAGE_EDITOR", ["Image", "UV", "Mask"]),
   ("NODE_EDITOR", ["Node Editor", "Shader", "Compositor", "Geometry"]),
   ("SEQUENCE_EDITOR", ["Sequence", "Video"]),
   ("FILE_BROWSER", ["File Browser"]),
   ("TEXT_EDITOR", ["Text"]),
   ("CONSOLE", ["Console"]),
   ("CLIP_EDITOR", ["Clip", "Tracking", "Stabilization"]),
   ("GREASE_PENCIL", ["Grease Pencil", "Draw", "Sculpt", "Paint"]),
   ("MASK_EDITOR", ["Mask"]),
   ("USER_INTERFACE", ["User Interface", "UI", "Window", "Screen"]),
   ("VIEW_2D", ["View2D"]),
   ("VIEW_2D_BUTTONS_LIST", ["Buttons List"]),
   ("EMPTY", ["Window", "Screen", "Global", "PME"]),
   ("SCREEN", ["Window", "Screen", "Global", "PME"]),
   ("INFO", ["Info"]),
   ("PROPERTIES", ["Property Editor", "Properties"]),
   ("OUTLINER", ["Outliner"]),
   ("TIMELINE", ["Frames", "Timeline"]),
   ("MARKER", ["Markers"]),
   ("ANIMATION", ["Animation"]),
   ("CHANNELS", ["Channels", "Dope Sheet"])]

/-- The legacy v09 `is_relevant_keymap` from src/unnamed/part_000. -/
def is_relevant_keymap_v09 (km : Keymap) (editor : String) : Bool :=
  if km.space_type = editor then true
  else
    let keywords := (lookupAssoc match_map_v09 editor).getD []
    keywords.any (fun k => strContains km.name k)

-- ===== binding signatures and disabled-binding mask =====

/-- The 5-tuple returned by `_sig_for_kmi`: (km.name, idname, kmi.name,
value, key_modifier). -/
structure Sig5 where
  km_name : String
  idname : String
  kmi_name : String
  value : String
  key_modifier : String
deriving DecidableEq, Repr

/-- `_sig_for_kmi` from src/__init__.py (the `or`/`getattr` defaults are the
identity on our total model, noted field by field). -/
def _sig_for_kmi (km : Keymap) (kmi : KeymapItem) : Sig5 :=
  ⟨km.name, kmi.idname, kmi.name, kmi.value, kmi.key_modifier⟩

/-- The 10-tuple returned by `_full_binding_sig`. -/
structure FullSig where
  km_name : String
  idname : String
  type : String
  ctrl : Bool
  shift : Bool
  alt : Bool
  oskey : Bool
  anyMod : Bool
  value : String
  key_modifier : String
deriving DecidableEq, Repr

/-- `_full_binding_sig` from src/__init__.py. -/
def _full_binding_sig (km : Keymap) (kmi : KeymapItem) : FullSig :=
  ⟨km.name, kmi.idname, kmi.type, kmi.ctrl, kmi.shift, kmi.alt, kmi.oskey,
   kmi.anyMod, kmi.value, kmi.key_modifier⟩

/-- `_collect_disabled_binding_sigs` from src/__init__.py: full signatures of
all inactive items in the user and active keyconfigs (a Python set, modelled
as a list used through membership). -/
def _collect_disabled_binding_sigs (wm : WM) : List FullSig :=
  ([wm.kcUser, wm.kcActive].filterMap id).flatMap (fun kc =>
    kc.keymaps.flatMap (fun km =>
      (km.keymap_items.filter (fun kmi => !kmi.active)).map (_full_binding_sig km)))

/-- `_iter_all_keyconfigs` step: append the keyconfig unless absent or
already seen (Python `if kc and kc not in kcs`). -/
def addKc (kcs : List Keyconfig) : Option Keyconfig → List Keyconfig
  | none => kcs
  | some kc => if kc ∈ kcs then kcs else kcs ++ [kc]

/-- `_iter_all_keyconfigs` from src/__init__.py: default, user, addon,
active, then any further keyconfigs of `wm.keyconfigs`, deduplicated. -/
def _iter_all_keyconfigs (wm : WM) : List Keyconfig :=
  let base := addKc (addKc (addKc (addKc [] wm.kcDefault) wm.kcUser) wm.kcAddon) wm.kcActive
  wm.extra.foldl (fun acc kc => if kc ∈ acc then acc else acc ++ [kc]) base

-- ===== editor map and label formatting =====

/-- `editor_map` from src/__init__.py. -/
def editor_map : List (String × String) :=
  [("VIEW_3D", "3D Viewport"), ("IMAGE_EDITOR", "Image / UV"),
   ("GRAPH_EDITOR", "Graph Editor"), ("DOPESHEET_EDITOR", "Dope Sheet"),
   ("NLA_EDITOR", "NLA Editor"), ("SEQUENCE_EDITOR", "Video Sequence"),
   ("NODE_EDITOR", "Node Editor"), ("OUTLINER", "Outliner"),
   ("TEXT_EDITOR", "Text Editor"), ("PROPERTIES", "Properties"),
   ("CONSOLE", "Console"), ("PREFERENCES", "Preferences"),
   ("CLIP_EDITOR", "Movie Clip"), ("EMPTY", "Window"), ("SCREEN", "Screen")]

/-- `_format_kmi_label` from src/__init__.py.  The modal event fallback chain
`propvalue or propvalue_str or modal or type or "Modal Event"` is modelled
with the attributes absent on `bpy` items (`propvalue_str`, `modal`) dropped,
since `getattr` yields None for them. -/
def _format_kmi_label (kc_names : String) (km : Keymap) (kmi : KeymapItem) : String :=
  let space := pyOr km.space_type "EMPTY"
  let editor_display := (lookupAssoc editor_map space).getD (pyOr km.name space)
  let op := pyStrip kmi.idname
  let disp := pyStrip kmi.name
  let label :=
    if km.is_modal && op = "" then
      let event := pyOr kmi.propvalue (pyOr kmi.type "Modal Event")
      let event_str := pyTitle (underscoresToSpaces event)
      kc_names ++ ": " ++ editor_display ++ " > " ++ event_str
    else
      let base := if op ≠ "" then op else if disp ≠ "" then disp else "(Unknown)"
      let l0 := kc_names ++ ": " ++ editor_display ++ " > " ++ base
      if disp ≠ "" && disp ≠ op then l0 ++ " (" ++ disp ++ ")" else l0
  let extras :=
    (if kmi.anyMod then ["any-mod"] else []) ++
    (if kmi.value ≠ "" && kmi.value ≠ "PRESS" then ["value:" ++ kmi.value] else []) ++
    (if kmi.key_modifier ≠ "NONE" && kmi.key_modifier ≠ "UNKNOWN" && kmi.key_modifier ≠ ""
     then ["key_mod:" ++ kmi.key_modifier] else [])
  if extras.isEmpty then label
  else label ++ " [" ++ joinCommaSpace extras ++ "]"

-- ===== merged scan shared by the two match functions =====

/-- One in-progress merged entry of the `merged`/`order` structure shared by
`get_keymap_matches_in_editor` and `get_global_matches`: the signature, the
first-seen keymap and item, and the set of contributing keyconfig names. -/
structure Gather where
  sig : Sig5
  km : Keymap
  kmi : KeymapItem
  kcs : List String
deriving DecidableEq, Repr

/-- Python set `add` on a list of names. -/
def addName (names : List String) (n : String) : List String :=
  if n ∈ names then names else names ++ [n]

/-- Insert a match: a new signature is appended (`merged[sig] = ...` plus
`order.append`), an existing one only gains the keyconfig name. -/
def upsertSig : List Gather → Sig5 → Keymap → KeymapItem → String → List Gather
  | [], s, km, kmi, n => [⟨s, km, kmi, [n]⟩]
  | g :: gs, s, km, kmi, n =>
    if g.sig = s then { g with kcs := addName g.kcs n } :: gs
    else g :: upsertSig gs s km kmi n

/-- The inner item loop of both match functions. -/
def scanItems (itemPred : Keymap → KeymapItem → Bool) (km : Keymap) (kcName : String)
    (acc : List Gather) : List Gather :=
  km.keymap_items.foldl
    (fun a kmi => if itemPred km kmi then upsertSig a (_sig_for_kmi km kmi) km kmi kcName else a)
    acc

/-- The keymap loop of both match functions. -/
def scanKeymaps (kmPred : Keymap → Bool) (itemPred : Keymap → KeymapItem → Bool)
    (kcName : String) (acc : List Gather) (kms : List Keymap) : List Gather :=
  kms.foldl (fun a km => if kmPred km then scanItems itemPred km kcName a else a) acc

/-- The keyconfig loop of both match functions. -/
def scanKcs (kmPred : Keymap → Bool) (itemPred : Keymap → KeymapItem → Bool)
    (acc : List Gather) (kcs : List Keyconfig) : List Gather :=
  kcs.foldl (fun a kc => scanKeymaps kmPred itemPred kc.name a kc.keymaps) acc

/-- A resolved output row `(label, sig, kc_names)`. -/
structure Row where
  label : String
  sig : Sig5
  kcs : List String
deriving DecidableEq, Repr

/-- The output loop shared by both match functions: format the label from
the sorted keyconfig names and emit rows in first-occurrence order. -/
def finalizeRows (gs : List Gather) : List Row :=
  gs.map (fun g =>
    ⟨_format_kmi_label (joinCommaSpace (sortStrings g.kcs)) g.km g.kmi,
     g.sig, sortStrings g.kcs⟩)

/-- The UV extra-strictness test of `get_keymap_matches_in_editor`. -/
def uvStrictOk (kmi : KeymapItem) : Bool :=
  let id_lc := pyLower kmi.idname
  let name_lc := pyLower kmi.name
  strContains id_lc "uv." || strStarts name_lc "uv " || strContains name_lc " uv "

/-- The keymap-level guard of `get_keymap_matches_in_editor` (hide-modal
skip, then relevance). -/
def editorKmPred (editor : String) (hide_modal : Bool) (km : Keymap) : Bool :=
  !(hide_modal && km.is_modal) && is_relevant_keymap km editor

/-- The item-level guard of `get_keymap_matches_in_editor` (active, key
token, modifiers, disabled mask, UV strictness). -/
def editorItemPred (tokens : List String) (disabled : List FullSig) (editor : String)
    (ctrl shift alt cmd : Bool) (km : Keymap) (kmi : KeymapItem) : Bool :=
  kmi.active && decide (kmi.type ∈ tokens) &&
  _modifiers_match kmi ctrl shift alt cmd &&
  !(decide (_full_binding_sig km kmi ∈ disabled)) &&
  (!(decide (editor = "UV")) || uvStrictOk kmi)

/-- `get_keymap_matches_in_editor` from src/__init__.py. -/
def get_keymap_matches_in_editor (wm : WM) (key_label editor : String)
    (ctrl shift alt cmd : Bool) (hide_modal : Bool) : List Row :=
  let tokens := normalize_key_types key_label
  let disabled := _collect_disabled_binding_sigs wm
  finalizeRows (scanKcs (editorKmPred editor hide_modal)
    (editorItemPred tokens disabled editor ctrl shift alt cmd)
    [] (_iter_all_keyconfigs wm))

/-- The keymap-level guard of `get_global_matches` (hide-modal skip, then
the Window/Screen scope restriction). -/
def globalKmPred (hide_modal : Bool) (km : Keymap) : Bool :=
  !(hide_modal && km.is_modal) &&
  (decide (pyOr km.space_type "EMPTY" = "EMPTY") ||
   decide (pyOr km.space_type "EMPTY" = "SCREEN"))

/-- The item-level guard of `get_global_matches`. -/
def globalItemPred (tokens : List String) (disabled : List FullSig)
    (ctrl shift alt cmd : Bool) (km : Keymap) (kmi : KeymapItem) : Bool :=
  kmi.active && decide (kmi.type ∈ tokens) &&
  _modifiers_match kmi ctrl shift alt cmd &&
  !(decide (_full_binding_sig km kmi ∈ disabled))

/-- `get_global_matches` from src/__init__.py. -/
def get_global_matches (wm : WM) (key_label : String)
    (ctrl shift alt cmd : Bool) (hide_modal : Bool) : List Row :=
  let tokens := normalize_key_types key_label
  let disabled := _collect_disabled_binding_sigs wm
  finalizeRows (scanKcs (globalKmPred hide_modal)
    (globalItemPred tokens disabled ctrl shift alt cmd)
    [] (_iter_all_keyconfigs wm))

-- ===== row post-processing helpers (match panel) =====

/-- The dedup key of `_compact_rows`: `(sig[1], sig[3], sig[4])`, i.e.
(idname, value, key_modifier). -/
def rowKey (r : Row) : String × String × String :=
  (r.sig.idname, r.sig.value, r.sig.key_modifier)

/-- One step of `_compact_rows`: a new key is appended (keeping the row's
label, sig and keyconfig names as they are), an existing key keeps its
first-seen label and sig and merges the keyconfig-name sets. -/
def upsertRow : List Row → Row → List Row
  | [], r => [r]
  | x :: xs, r =>
    if rowKey x = rowKey r then { x with kcs := mergeKcs x.kcs r.kcs } :: xs
    else x :: upsertRow xs r

/-- `_compact_rows` from src/__init__.py. -/
def _compact_rows (rows : List Row) : List Row := rows.foldl upsertRow []

/-- `_only_press` from src/__init__.py. -/
def _only_press (rows : List Row) : List Row :=
  rows.filter (fun r => r.sig.value == "PRESS")

/-- The per-mode allowed operator prefixes used by
`_allow_global_for_editor` for the 3D viewport. -/
def allowed_by_mode : List (String × List String) :=
  [("OBJECT", ["object.", "mesh.", "view3d.", "pose.", "armature.", "wm.pme_user_pie_menu_call"]),
   ("EDIT_MESH", ["mesh.", "view3d.", "uv.", "curve.", "curves.", "wm.pme_user_pie_menu_call"]),
   ("EDIT_CURVE", ["curve.", "curves.", "view3d.", "wm.pme_user_pie_menu_call"]),
   ("EDIT_SURFACE", ["curve.", "view3d.", "wm.pme_user_pie_menu_call"]),
   ("SCULPT", ["sculpt.", "view3d.", "wm.pme_user_pie_menu_call"]),
   ("PAINT_VERTEX", ["paint.", "view3d.", "wm.pme_user_pie_menu_call"]),
   ("PAINT_WEIGHT", ["paint.", "view3d.", "wm.pme_user_pie_menu_call"]),
   ("PAINT_TEXTURE", ["paint.", "view3d.", "wm.pme_user_pie_menu_call"]),
   ("SCULPT_CURVES", ["curves.", "view3d.", "wm.pme_user_pie_menu_call"]),
   ("PARTICLE_EDIT", ["particle.", "view3d.", "wm.pme_user_pie_menu_call"]),
   ("POSE", ["pose.", "armature.", "object.", "view3d.", "wm.pme_user_pie_menu_call"]),
   ("EDIT_ARMATURE", ["armature.", "view3d.", "wm.pme_user_pie_menu_call"])]

/-- The per-editor operator families used by `_allow_global_for_editor`. -/
def editor_family : List (String × List String) :=
  [("GRAPH_EDITOR", ["graph.", "anim.", "wm.pme_user_pie_menu_call"]),
   ("DOPESHEET_EDITOR", ["anim.", "action.", "wm.pme_user_pie_menu_call"]),
   ("NLA_EDITOR", ["nla.", "wm.pme_user_pie_menu_call"]),
   ("SEQUENCE_EDITOR", ["sequencer.", "wm.pme_user_pie_menu_call"]),
   ("NODE_EDITOR", ["node.", "wm.pme_user_pie_menu_call"]),
   ("CLIP_EDITOR", ["clip.", "wm.pme_user_pie_menu_call"]),
   ("OUTLINER", ["outliner.", "wm.pme_user_pie_menu_call"]),
   ("TEXT_EDITOR", ["text.", "wm.pme_user_pie_menu_call"]),
   ("FILE_BROWSER", ["file.", "wm.pme_user_pie_menu_call"])]

/-- `_allow_global_for_editor` from src/__init__.py. -/
def _allow_global_for_editor (opid_lc editor_id mode_str : String) : Bool :=
  if editor_id = "VIEW_3D" then
    let allowed := (lookupAssoc allowed_by_mode mode_str).getD
      ["view3d.", "object.", "mesh.", "wm.pme_user_pie_menu_call"]
    allowed.any (fun p => strStarts opid_lc p) || opid_lc = "wm.pme_user_pie_menu_call"
  else if editor_id = "UV" then
    ["uv.", "image.", "wm.pme_user_pie_menu_call"].any (fun p => strStarts opid_lc p)
  else if editor_id = "IMAGE_EDITOR" then
    ["image.", "mask.", "uv.", "wm.pme_user_pie_menu_call"].any (fun p => strStarts opid_lc p)
  else
    let family := (lookupAssoc editor_family editor_id).getD ["wm.pme_user_pie_menu_call"]
    family.any (fun p => strStarts opid_lc p) || opid_lc = "wm.pme_user_pie_menu_call"

/-- `_filter_global_rows_for_context` from src/__init__.py
(`(sig[1] or '').lower()` is `pyLower` of the idname, since `or ''` is the
identity on strings). -/
def _filter_global_rows_for_context (rows : List Row) (editor_id mode_str : String) :
    List Row :=
  rows.filter (fun r => _allow_global_for_editor (pyLower r.sig.idname) editor_id mode_str)

-- ===== conflicts =====

/-- The reduced identity `(idname, value, key_modifier)` used by
`get_keymap_conflicts` (its local `sig3`). -/
def sig3 (r : Row) : String × String × String :=
  (r.sig.idname, r.sig.value, r.sig.key_modifier)

/-- The keep-first compaction of global rows inside `get_keymap_conflicts`
(`compact`/`order`: first row per reduced identity, in order). -/
def dedupFirstBySig3 (rows : List Row) : List Row :=
  rows.foldl (fun acc r => if acc.any (fun x => sig3 x = sig3 r) then acc else acc ++ [r]) []

/-- `get_keymap_conflicts` from src/__init__.py: returns (editor_rows,
global_rows, intra_editor_conflicts, editor_overlap_rows,
global_overlap_rows).  The `screen_always_on` argument is unused by the
source function and kept for signature fidelity. -/
def get_keymap_conflicts (wm : WM) (key_label current_editor : String)
    (ctrl shift alt cmd : Bool) (_screen_always_on hide_modal : Bool) :
    List Row × List Row × List Row × List Row × List Row :=
  let editor_rows := get_keymap_matches_in_editor wm key_label current_editor ctrl shift alt cmd hide_modal
  let global_full := get_global_matches wm key_label ctrl shift alt cmd hide_modal
  let global_rows := dedupFirstBySig3 global_full
  let intra_editor_conflicts := if editor_rows.length > 1 then editor_rows else []
  let editor_sigset := editor_rows.map sig3
  let global_sigset := global_rows.map sig3
  let overlap := editor_sigset.filter (fun k => k ∈ global_sigset)
  let editor_overlap_rows := editor_rows.filter (fun r => sig3 r ∈ overlap)
  let global_overlap_rows := global_rows.filter (fun r => sig3 r ∈ overlap)
  (editor_rows, global_rows, intra_editor_conflicts, editor_overlap_rows, global_overlap_rows)

-- ===== highlight computation and cache =====

/-- `_rows_for_assigned_context` from src/__init__.py (editor PRESS rows
compacted, plus context-filtered global PRESS rows when the system-keymaps
toggle is on, compacted again). -/
def _rows_for_assigned_context (wm : WM) (editor : String)
    (ctrl shift alt cmd screen_always_on hide_modal : Bool) (mode_str key_label : String) :
    List Row :=
  let ed := _compact_rows (_only_press
    (get_keymap_matches_in_editor wm key_label editor ctrl shift alt cmd hide_modal))
  if screen_always_on then
    let gl := _compact_rows (_only_press
      (get_global_matches wm key_label ctrl shift alt cmd hide_modal))
    let gl := _filter_global_rows_for_context gl editor mode_str
    _compact_rows (ed ++ gl)
  else ed

/-- `_rows_for_global_scopes_section` from src/__init__.py (raw global PRESS
rows, compacted, no editor/mode filter; empty when the toggle is off). -/
def _rows_for_global_scopes_section (wm : WM)
    (ctrl shift alt cmd screen_always_on hide_modal : Bool) (key_label : String) :
    List Row :=
  if !screen_always_on then []
  else _compact_rows (_only_press
    (get_global_matches wm key_label ctrl shift alt cmd hide_modal))

/-- A cache query key, as built by `get_cache_key`: the preference fields
and the interaction mode. -/
structure QKey where
  editor : String
  ctrl : Bool
  shift : Bool
  alt : Bool
  cmd : Bool
  screen_always_on : Bool
  hide_modal : Bool
  mode : String
deriving DecidableEq, Repr

/-- `_highlight_for` from `populate_keymap_cache`: highlighted iff the
assigned-context rows or the global-scopes rows are non-empty. -/
def _highlight_for (wm : WM) (qk : QKey) (label : String) : Bool :=
  !(_rows_for_assigned_context wm qk.editor qk.ctrl qk.shift qk.alt qk.cmd
      qk.screen_always_on qk.hide_modal qk.mode label).isEmpty ||
  !(_rows_for_global_scopes_section wm qk.ctrl qk.shift qk.alt qk.cmd
      qk.screen_always_on qk.hide_modal label).isEmpty

/-- `qwerty_keys` from src/__init__.py. -/
def qwerty_keys : List (List String) :=
  [["ESC", "F1", "F2", "F3", "F4", "F5", "F6", "F7", "F8", "F9", "F10", "F11", "F12"],
   ["`", "1", "2", "3", "4", "5", "6", "7", "8", "9", "0", "-", "=", "DELETE"],
   ["TAB", "Q", "W", "E", "R", "T", "Y", "U", "I", "O", "P", "[", "]", "\\"],
   ["A", "S", "D", "F", "G", "H", "J", "K", "L", ";", "'", "RETURN"],
   ["Z", "X", "C", "V", "B", "N", "M", ",", ".", "/"],
   ["SPACE", "ENTER", "BACK_SPACE"]]

/-- `numpad_keys` from src/__init__.py. -/
def numpad_keys : List (List String) :=
  [["F16", "F17", "F18", "F19"],
   [" ", "=", "/", "*"],
   ["7", "8", "9", "-"],
   ["4", "5", "6", "+"],
   ["1", "2", "3", " "],
   [" ", "0", ".", "ENTER"]]

/-- `cursor_keys` from src/__init__.py. -/
def cursor_keys : List (List String) :=
  [["F13", "F14", "F15"],
   ["INSERT", "HOME", "PAGE_UP"],
   ["DELETE", "END", "PAGE_DOWN"],
   [" ", " ", " "], [" ", " ", " "], [" ", " ", " "], [" ", " ", " "],
   [" ", "UP", " "],
   ["DOWN", "LEFT", "RIGHT"]]

/-- The numpad key-id mapping of `populate_keymap_cache`. -/
def numpadKeyId (k : String) : String :=
  if k = "0" || k = "1" || k = "2" || k = "3" || k = "4" || k = "5" ||
     k = "6" || k = "7" || k = "8" || k = "9" then "NUMPAD_" ++ k
  else if k = "." then "NUMPAD_PERIOD"
  else if k = "/" then "NUMPAD_SLASH"
  else if k = "*" then "NUMPAD_ASTERIX"
  else if k = "-" then "NUMPAD_MINUS"
  else if k = "+" then "NUMPAD_PLUS"
  else if k = "ENTER" then "NUMPAD_ENTER"
  else if k = "=" then "NUMPAD_EQUALS"
  else k

/-- The key ids written by `populate_keymap_cache`, in write order: qwerty
keys, cursor keys (skipping fillers), then translated numpad keys. -/
def cacheKeyList : List String :=
  qwerty_keys.flatten ++
  (cursor_keys.flatten.filter (fun k => k ≠ " ")) ++
  ((numpad_keys.flatten.filter (fun k => k ≠ " ")).map numpadKeyId)

/-- The per-key highlight table (Python dict keyed by key label). -/
abbrev HiTable := List (String × Bool)

/-- Python dict assignment `cache[k] = b` (overwrite or append). -/
def tableInsert : HiTable → String → Bool → HiTable
  | [], k, b => [(k, b)]
  | (k0, b0) :: t, k, b =>
    if k0 = k then (k, b) :: t else (k0, b0) :: tableInsert t k b

/-- Python `cache.get(label, False)`. -/
def tableGet : HiTable → String → Bool
  | [], _ => false
  | (k0, b0) :: t, k => if k0 = k then b0 else tableGet t k

/-- The table built by `populate_keymap_cache` for one query key. -/
def populate_table (wm : WM) (qk : QKey) : HiTable :=
  cacheKeyList.foldl (fun t k => tableInsert t k (_highlight_for wm qk k)) []

/-- The module-level cache state: `keymap_cache` and
`last_keyconfig_fingerprint`. -/
structure CacheState where
  cache : List (QKey × HiTable)
  lastFp : Option (List (String × Nat))
deriving DecidableEq, Repr

/-- The state at add-on registration: empty cache, no stored fingerprint. -/
def initCacheState : CacheState := ⟨[], none⟩

/-- Item count of one keyconfig slot for `_compute_keyconfig_fingerprint`
(0 when the slot is absent). -/
def kcCount : Option Keyconfig → Nat
  | none => 0
  | some kc => kc.keymaps.foldl (fun n km => n + km.keymap_items.length) 0

/-- `_compute_keyconfig_fingerprint` from src/__init__.py: per-slot entry
counts for default, user, addon, active. -/
def _compute_keyconfig_fingerprint (wm : WM) : List (String × Nat) :=
  [("default", kcCount wm.kcDefault), ("user", kcCount wm.kcUser),
   ("addon", kcCount wm.kcAddon), ("active", kcCount wm.kcActive)]

/-- `is_cache_valid` from src/__init__.py: recompute the fingerprint; on a
change store it and report invalid. -/
def is_cache_valid (wm : WM) (st : CacheState) : Bool × CacheState :=
  let fp := _compute_keyconfig_fingerprint wm
  if st.lastFp = some fp then (true, st) else (false, { st with lastFp := some fp })

/-- Lookup of a query key in `keymap_cache`. -/
def cacheLookup : List (QKey × HiTable) → QKey → Option HiTable
  | [], _ => none
  | (k0, t0) :: t, k => if k0 = k then some t0 else cacheLookup t k

/-- `populate_keymap_cache` from src/__init__.py: return the stored table if
present, else build and store it. -/
def populate_keymap_cache (wm : WM) (qk : QKey) (st : CacheState) :
    HiTable × CacheState :=
  match cacheLookup st.cache qk with
  | some c => (c, st)
  | none =>
    let c := populate_table wm qk
    (c, { st with cache := st.cache ++ [(qk, c)] })

/-- `is_key_used_cached` from src/__init__.py: fingerprint check (clearing
the whole cache on a change, as `clear_keymap_cache` does), then cached
lookup with populate-on-miss. -/
def is_key_used_cached (wm : WM) (qk : QKey) (st : CacheState) (key_label : String) :
    Bool × CacheState :=
  let v := is_cache_valid wm st
  let st2 := if v.fst then v.snd else { v.snd with cache := [] }
  match cacheLookup st2.cache qk with
  | some c => (tableGet c key_label, st2)
  | none =>
    let p := populate_keymap_cache wm qk st2
    (tableGet p.fst key_label, p.snd)

-- ===== cache coherence as a trace property =====

/-- One UI context: the window-manager configuration plus the preference
fields that form the cache key. -/
structure Ctx where
  wm : WM
  qk : QKey
deriving DecidableEq, Repr

/-- An event of a query trace: a configuration/preference change, or one
`is_key_used_cached` call. -/
inductive Event where
  | setCfg (c : Ctx)
  | query (label : String)
deriving DecidableEq, Repr

/-- Checks a whole trace: every `is_key_used_cached` answer for a key of the
rendered keyboard must equal the direct uncached `_highlight_for`
computation against the configuration current at that moment. -/
def traceOK : Ctx → CacheState → List Event → Bool
  | _, _, [] => true
  | _, st, Event.setCfg c2 :: evs => traceOK c2 st evs
  | c, st, Event.query l :: evs =>
    let r := is_key_used_cached c.wm c.qk st l
    (!(decide (l ∈ cacheKeyList)) || (r.fst == _highlight_for c.wm c.qk l)) &&
    traceOK c r.snd evs

/-- The window-manager configurations occurring in a trace. -/
def wmsOfTrace (c0 : Ctx) (evs : List Event) : List WM :=
  c0.wm :: evs.filterMap (fun e => match e with
    | Event.setCfg c => some c.wm
    | Event.query _ => none)

-- ===== the deactivate operator =====

/-- The operator properties of `WM_OT_DisableKeymapItem`. -/
structure DisableArgs where
  kc_name : String
  km_name : String
  kmi_idname : String
  kmi_name : String
  kmi_value : String
  kmi_key_modifier : String
deriving DecidableEq, Repr

/-- The signature tuple the operator compares each item against. -/
def targetSig (a : DisableArgs) : Sig5 :=
  ⟨a.km_name, a.kmi_idname, a.kmi_name, a.kmi_value, a.kmi_key_modifier⟩

/-- Operator return value (`{'FINISHED'}` / `{'CANCELLED'}`). -/
inductive OpStatus where
  | FINISHED
  | CANCELLED
deriving DecidableEq, Repr

/-- Find the first item whose `_sig_for_kmi` equals the requested signature
and flip its active flag; `none` when no item matches. -/
def disableInItems (km : Keymap) (a : DisableArgs) :
    List KeymapItem → Option (List KeymapItem)
  | [] => none
  | it :: rest =>
    if _sig_for_kmi km it = targetSig a then some ({ it with active := false } :: rest)
    else (disableInItems km a rest).map (fun r => it :: r)

/-- Find the first keymap with the requested name (the operator stops at it:
a missing item there fails the whole operation) and disable inside it. -/
def disableInKms (a : DisableArgs) : List Keymap → Option (List Keymap)
  | [] => none
  | km :: rest =>
    if km.name = a.km_name then
      (disableInItems km a km.keymap_items).map
        (fun its => { km with keymap_items := its } :: rest)
    else (disableInKms a rest).map (fun r => km :: r)

/-- Find the first keyconfig with the requested name (again the operator
stops at it) and disable inside it. -/
def disableInKcs (a : DisableArgs) : List Keyconfig → Option (List Keyconfig)
  | [] => none
  | kc :: rest =>
    if kc.name = a.kc_name then
      (disableInKms a kc.keymaps).map (fun kms => { kc with keymaps := kms } :: rest)
    else (disableInKcs a rest).map (fun r => kc :: r)

/-- `WM_OT_DisableKeymapItem.execute` from src/__init__.py, over the
keyconfig list yielded by `_iter_all_keyconfigs` and the module cache: each
missing stage reports CANCELLED with no state change; success flips the
first matching item's active flag and clears the whole cache
(`clear_keymap_cache`). -/
def disable_keymap_item_execute (kcs : List Keyconfig) (cache : List (QKey × HiTable))
    (a : DisableArgs) : OpStatus × List Keyconfig × List (QKey × HiTable) :=
  match disableInKcs a kcs with
  | none => (OpStatus.CANCELLED, kcs, cache)
  | some kcs2 => (OpStatus.FINISHED, kcs2, [])

/-- A live entry matching the operator's requested signature exists. -/
def HasTarget (kcs : List Keyconfig) (a : DisableArgs) : Prop :=
  ∃ kc ∈ kcs, kc.name = a.kc_name ∧
    ∃ km ∈ kc.keymaps, km.name = a.km_name ∧
      ∃ it ∈ km.keymap_items, _sig_for_kmi km it = targetSig a

instance (kcs : List Keyconfig) (a : DisableArgs) : Decidable (HasTarget kcs a) := by
  unfold HasTarget
  infer_instance

-- ===== derived notions used by the statements =====

/-- The signatures of a row list. -/
def rowSigs (rows : List Row) : List Sig5 := rows.map (fun r => r.sig)

/-- First-occurrence deduplication of `_compact_rows` keys. -/
def dedupKeys (l : List (String × String × String)) : List (String × String × String) :=
  dedupList l

/-- Cache soundness invariant for the trace argument: every stored table was
computed, by `populate_table`, from a configuration of the trace whose
fingerprint equals the stored one. -/
def CacheInv (wms : List WM) (st : CacheState) : Prop :=
  ∀ qk tbl, (qk, tbl) ∈ st.cache →
    ∃ w ∈ wms, some (_compute_keyconfig_fingerprint w) = st.lastFp ∧
      tbl = populate_table w qk

-- ===== concrete fixtures used by witnesses and counterexamples =====

/-- Two active press bindings of distinct commands on the A key. -/
def exKmiA : KeymapItem :=
  ⟨"mesh.aaa", "", "A", false, false, false, false, false, "PRESS", "NONE", true, ""⟩

/-- Second binding on the A key. -/
def exKmiB : KeymapItem :=
  ⟨"mesh.bbb", "", "A", false, false, false, false, false, "PRESS", "NONE", true, ""⟩

/-- A 3D-viewport keymap holding the two conflicting bindings. -/
def exKm3D : Keymap := ⟨"3D View", "VIEW_3D", false, [exKmiA, exKmiB]⟩

/-- A window manager whose default keyconfig holds the conflicting keymap. -/
def exWmConflict : WM := ⟨some ⟨"Blender", [exKm3D]⟩, none, none, none, []⟩

/-- The resolved row of the first conflicting binding. -/
def exRowA : Row :=
  ⟨"Blender: 3D Viewport > mesh.aaa", ⟨"3D View", "mesh.aaa", "", "PRESS", "NONE"⟩, ["Blender"]⟩

/-- The resolved row of the second conflicting binding. -/
def exRowB : Row :=
  ⟨"Blender: 3D Viewport > mesh.bbb", ⟨"3D View", "mesh.bbb", "", "PRESS", "NONE"⟩, ["Blender"]⟩

/-- A window binding on the Q key. -/
def exKmiQ : KeymapItem :=
  ⟨"wm.window_new", "", "Q", false, false, false, false, false, "PRESS", "NONE", true, ""⟩

/-- The same binding moved to the W key (same entry count). -/
def exKmiW : KeymapItem :=
  ⟨"wm.window_new", "", "W", false, false, false, false, false, "PRESS", "NONE", true, ""⟩

/-- A window manager with the Q binding in a Window (EMPTY-scope) keymap. -/
def exWmQ : WM := ⟨some ⟨"Blender", [⟨"Window", "EMPTY", false, [exKmiQ]⟩]⟩, none, none, none, []⟩

/-- The same window manager after the count-preserving swap to the W key:
its fingerprint equals that of `exWmQ` although the configurations differ. -/
def exWmW : WM := ⟨some ⟨"Blender", [⟨"Window", "EMPTY", false, [exKmiW]⟩]⟩, none, none, none, []⟩

/-- A fixed query key (3D viewport, no modifiers, system keymaps shown,
modal hidden, object mode). -/
def exQKey : QKey := ⟨"VIEW_3D", false, false, false, false, true, true, "OBJECT"⟩

/-- The context holding the Q configuration. -/
def exCtxQ : Ctx := ⟨exWmQ, exQKey⟩

/-- The context holding the W configuration. -/
def exCtxW : Ctx := ⟨exWmW, exQKey⟩

/-- Keyconfig list for the deactivate-operator witness. -/
def exKcsDisable : List Keyconfig := [⟨"Blender", [⟨"Window", "EMPTY", false, [exKmiQ]⟩]⟩]

/-- Matching request for the deactivate-operator witness. -/
def exArgsDisable : DisableArgs := ⟨"Blender", "Window", "wm.window_new", "", "PRESS", "NONE"⟩

/-- A non-empty cache for the deactivate-operator witness. -/
def exCacheDisable : List (QKey × HiTable) := [(exQKey, [("Q", true)])]

-- ===================================================================
-- Theorems
-- ===================================================================

-- ---- helper lemmas ----

theorem lookupAssoc_exists {α : Type} {l : List (String × α)} {k : String} {v : α}
    (h : lookupAssoc l k = some v) : ∃ p ∈ l, p.snd = v := by
  unfold lookupAssoc at h
  cases hf : l.find? (fun p => p.fst == k) with
  | none => rw [hf] at h; simp at h
  | some p =>
    rw [hf] at h
    simp only [Option.map_some', Option.some.injEq] at h
    exact ⟨p, List.mem_of_find?_eq_some hf, h⟩

/-- C4: `_modifiers_match` returns true exactly when either the entry's
`any` flag is set and all four requested modifiers are false, or the `any`
flag is clear and each of the entry's four modifier flags equals the
corresponding requested flag (no subset or superset matching). -/
theorem claim_C4_modifiers_match (kmi : KeymapItem) (ctrl shift alt cmd : Bool) :
    _modifiers_match kmi ctrl shift alt cmd = true ↔
      (if kmi.anyMod = true then
        ctrl = false ∧ shift = false ∧ alt = false ∧ cmd = false
       else
        kmi.ctrl = ctrl ∧ kmi.shift = shift ∧ kmi.alt = alt ∧ kmi.oskey = cmd) := by
  obtain ⟨i, n, t, c, s, al, o, an, v, k, ac, p⟩ := kmi
  simp only [_modifiers_match]
  cases an <;>
    simp [Bool.or_eq_true, Bool.and_eq_true, beq_iff_eq, Bool.not_eq_true',
      Bool.or_eq_false_iff, and_assoc]

/-- C6: `normalize_key_types` always returns a non-empty list (it is a pure
function, hence deterministic), and a label matching none of its tables
(not an F-key, arrow, special key, digit, punctuation, or NUMPAD_-prefixed
token) is passed through unchanged as a one-element list; no input fails. -/
theorem claim_C6_normalize_total (label : String) :
    normalize_key_types label ≠ [] ∧
    (unmapped_label label = true → normalize_key_types label = [label]) := by
  constructor
  · have hs : ∀ p ∈ special_table, p.snd ≠ ([] : List String) := by decide
    have hp : ∀ p ∈ punct_table, p.snd ≠ ([] : List String) := by decide
    unfold normalize_key_types
    split
    · simp
    · split
      · simp
      · split
        · next v heq =>
          obtain ⟨q, hq, hv⟩ := lookupAssoc_exists heq
          exact hv ▸ hs q hq
        · split
          · simp
          · split
            · next v heq =>
              obtain ⟨q, hq, hv⟩ := lookupAssoc_exists heq
              exact hv ▸ hp q hq
            · split <;> simp
  · intro h
    simp only [unmapped_label, Bool.and_eq_true, Bool.not_eq_true',
      Option.isNone_iff_eq_none] at h
    obtain ⟨⟨⟨⟨⟨h1, h2⟩, h3⟩, h4⟩, h5⟩, h6⟩ := h
    unfold normalize_key_types
    rw [h1, h2, h3, h4, h5, h6]
    simp

/-- Witness for C6: the unrecognized label MEDIA_PLAY passes through. -/
theorem claim_C6_normalize_total_witness :
    unmapped_label "MEDIA_PLAY" = true ∧
    normalize_key_types "MEDIA_PLAY" = ["MEDIA_PLAY"] :=
  ⟨by decide, (claim_C6_normalize_total "MEDIA_PLAY").2 (by decide)⟩

/-- Counterexample for C2: the classifier checks the UV-name block BEFORE
exact scope-tag equality, so the keymap named "UV Editor" with scope tag
IMAGE_EDITOR is rejected for the requested context IMAGE_EDITOR even though
the tags are exactly equal. -/
theorem claim_C2_counterexample :
    (Keymap.mk "UV Editor" "IMAGE_EDITOR" false []).space_type = "IMAGE_EDITOR" ∧
    is_relevant_keymap (Keymap.mk "UV Editor" "IMAGE_EDITOR" false []) "IMAGE_EDITOR"
      = false := by
  decide

/-- C2 as amended: exact scope-tag equality (with an empty tag read as
EMPTY) implies relevance only after the two UV guards: the requested context
is not UV and the group's lowercase name does not contain "uv". -/
theorem claim_C2_exact_tag (km : Keymap) (editor : String)
    (h1 : editor ≠ "UV") (h2 : strContains (pyLower km.name) "uv" = false)
    (h3 : pyOr km.space_type "EMPTY" = editor) :
    is_relevant_keymap km editor = true := by
  simp only [is_relevant_keymap]
  rw [if_neg h1, h2, h3]
  simp

/-- Witness for C2 as amended: the Screen keymap is relevant for the SCREEN
context. -/
theorem claim_C2_exact_tag_witness :
    is_relevant_keymap (Keymap.mk "Screen" "SCREEN" false []) "SCREEN" = true :=
  claim_C2_exact_tag (Keymap.mk "Screen" "SCREEN" false []) "SCREEN"
    (by decide) (by decide) (by decide)

/-- Counterexample for C3: for the global context EMPTY, the current
classifier ignores the keyword set - the keymap named "Window" (whose name
contains the keyword "Window") with scope tag SCREEN is NOT relevant, since
the current code only tests scope-tag equality. -/
theorem claim_C3_counterexample :
    (["Window", "Screen", "Global", "PME"].any
       (fun k => strContains (Keymap.mk "Window" "SCREEN" false []).name k)) = true ∧
    is_relevant_keymap (Keymap.mk "Window" "SCREEN" false []) "EMPTY" = false := by
  decide

/-- C3 as amended: for the designated global contexts (EMPTY and SCREEN)
the CURRENT classifier decides relevance by exact scope-tag equality
(blocking uv-named groups), not by name keywords; the keyword-set rule
(window/screen/global/PME words in the group's name, in addition to tag
equality) holds only for the legacy v09 classifier. -/
theorem claim_C3_global_contexts (km : Keymap) (editor : String)
    (h : editor = "EMPTY" ∨ editor = "SCREEN") :
    is_relevant_keymap km editor =
      (!(strContains (pyLower km.name) "uv") &&
        decide (pyOr km.space_type "EMPTY" = editor)) ∧
    is_relevant_keymap_v09 km editor =
      (decide (km.space_type = editor) ||
        ["Window", "Screen", "Global", "PME"].any (fun k => strContains km.name k)) := by
  have hkwE : (lookupAssoc match_map_v09 "EMPTY").getD []
      = ["Window", "Screen", "Global", "PME"] := by decide
  have hkwS : (lookupAssoc match_map_v09 "SCREEN").getD []
      = ["Window", "Screen", "Global", "PME"] := by decide
  rcases h with rfl | rfl <;> constructor
  · by_cases hc : strContains (pyLower km.name) "uv" = true <;>
      by_cases hs : pyOr km.space_type "EMPTY" = "EMPTY" <;>
      simp [is_relevant_keymap, hc, hs]
  · by_cases hv : km.space_type = "EMPTY" <;>
      simp [is_relevant_keymap_v09, hv, hkwE]
  · by_cases hc : strContains (pyLower km.name) "uv" = true <;>
      by_cases hs : pyOr km.space_type "EMPTY" = "SCREEN" <;>
      simp [is_relevant_keymap, hc, hs]
  · by_cases hv : km.space_type = "SCREEN" <;>
      simp [is_relevant_keymap_v09, hv, hkwS]

/-- Witness for C3 as amended: on the "Window"-named SCREEN keymap queried
for EMPTY, the current classifier answers false and the v09 classifier
answers true. -/
theorem claim_C3_global_contexts_witness :
    is_relevant_keymap (Keymap.mk "Window" "SCREEN" false []) "EMPTY" = false ∧
    is_relevant_keymap_v09 (Keymap.mk "Window" "SCREEN" false []) "EMPTY" = true := by
  have h := claim_C3_global_contexts (Keymap.mk "Window" "SCREEN" false []) "EMPTY"
    (Or.inl rfl)
  exact ⟨h.1.trans (by decide), h.2.trans (by decide)⟩

-- ---- C8: intra-context conflicts ----

/-- C8: when the requested context has exactly two matching rows with
distinct command ids, the intra-context conflict list of
`get_keymap_conflicts` is exactly those two rows; with fewer than two
distinct rows it is empty. -/
theorem claim_C8_intra_conflicts (wm : WM) (key_label editor : String)
    (ctrl shift alt cmd son hm : Bool) (r1 r2 : Row) :
    ((get_keymap_conflicts wm key_label editor ctrl shift alt cmd son hm).1 = [r1, r2] →
      r1.sig.idname ≠ r2.sig.idname →
      (get_keymap_conflicts wm key_label editor ctrl shift alt cmd son hm).2.2.1 = [r1, r2]) ∧
    ((get_keymap_conflicts wm key_label editor ctrl shift alt cmd son hm).1.length < 2 →
      (get_keymap_conflicts wm key_label editor ctrl shift alt cmd son hm).2.2.1 = []) := by
  simp only [get_keymap_conflicts]
  constructor
  · intro h1 _
    rw [h1]
    simp
  · intro hlen
    split
    · omega
    · rfl

/-- Witness for C8: two press bindings of distinct commands on the A key in
the 3D viewport yield exactly those two rows as the intra-editor conflict
set. -/
theorem claim_C8_intra_conflicts_witness :
    (get_keymap_conflicts exWmConflict "A" "VIEW_3D" false false false false true true).1
      = [exRowA, exRowB] ∧
    exRowA.sig.idname ≠ exRowB.sig.idname ∧
    (get_keymap_conflicts exWmConflict "A" "VIEW_3D" false false false false true true).2.2.1
      = [exRowA, exRowB] :=
  ⟨by decide, by decide,
   (claim_C8_intra_conflicts exWmConflict "A" "VIEW_3D" false false false false true true
      exRowA exRowB).1 (by decide) (by decide)⟩

-- ---- C10: the two overlap lists are jointly empty or jointly non-empty ----

theorem overlap_lists_jointly_empty (E G : List Row) :
    (E.filter (fun r => decide (sig3 r ∈ (E.map sig3).filter (fun k => decide (k ∈ G.map sig3)))) = []
      ↔
     G.filter (fun r => decide (sig3 r ∈ (E.map sig3).filter (fun k => decide (k ∈ G.map sig3)))) = []) := by
  have hE : (E.filter (fun r => decide (sig3 r ∈ (E.map sig3).filter (fun k => decide (k ∈ G.map sig3)))) = [])
      ↔ ((E.map sig3).filter (fun k => decide (k ∈ G.map sig3)) = []) := by
    constructor
    · intro h
      rw [List.filter_eq_nil_iff] at h
      rw [List.eq_nil_iff_forall_not_mem]
      intro k hk
      have hk2 := hk
      rw [List.mem_filter] at hk2
      obtain ⟨hkE, _⟩ := hk2
      obtain ⟨r, hr, hrk⟩ := List.mem_map.mp hkE
      exact h r hr (by simp only [decide_eq_true_eq]; rw [hrk]; exact hk)
    · intro h
      rw [h]
      simp
  have hG : (G.filter (fun r => decide (sig3 r ∈ (E.map sig3).filter (fun k => decide (k ∈ G.map sig3)))) = [])
      ↔ ((E.map sig3).filter (fun k => decide (k ∈ G.map sig3)) = []) := by
    constructor
    · intro h
      rw [List.filter_eq_nil_iff] at h
      rw [List.eq_nil_iff_forall_not_mem]
      intro k hk
      have hk2 := hk
      rw [List.mem_filter] at hk2
      obtain ⟨_, hkG⟩ := hk2
      obtain ⟨r, hr, hrk⟩ := List.mem_map.mp (by simpa using hkG)
      exact h r hr (by simp only [decide_eq_true_eq]; rw [hrk]; exact hk)
    · intro h
      rw [h]
      simp
  exact hE.trans hG.symm

/-- C10: in `get_keymap_conflicts` the editor-overlap list is empty exactly
when the global-overlap list is empty - both restrict their row sets to the
same intersection of reduced (command id, trigger value, key-modifier)
identities. -/
theorem claim_C10_overlap_joint (wm : WM) (key_label editor : String)
    (ctrl shift alt cmd son hm : Bool) :
    ((get_keymap_conflicts wm key_label editor ctrl shift alt cmd son hm).2.2.2.1 = []
      ↔
     (get_keymap_conflicts wm key_label editor ctrl shift alt cmd son hm).2.2.2.2 = []) := by
  simp only [get_keymap_conflicts]
  exact overlap_lists_jointly_empty _ _

-- ---- C7: properties of _compact_rows ----

theorem find?_append_some {α : Type} {p : α → Bool} {l1 l2 : List α} {a : α}
    (h : l1.find? p = some a) : (l1 ++ l2).find? p = some a := by
  induction l1 with
  | nil => simp [List.find?] at h
  | cons x xs ih =>
    rw [List.cons_append]
    cases hx : p x with
    | true => rw [List.find?_cons_of_pos _ hx] at h ⊢; exact h
    | false =>
      rw [List.find?_cons_of_neg _ (by simp [hx])] at h ⊢
      exact ih h

theorem find?_append_none {α : Type} {p : α → Bool} {l1 l2 : List α}
    (h : l1.find? p = none) : (l1 ++ l2).find? p = l2.find? p := by
  induction l1 with
  | nil => simp
  | cons x xs ih =>
    rw [List.cons_append]
    cases hx : p x with
    | true => rw [List.find?_cons_of_pos _ hx] at h; exact absurd h (by simp)
    | false =>
      rw [List.find?_cons_of_neg _ (by simp [hx])] at h ⊢
      exact ih h

theorem mem_insertStr {x z : String} {l : List String} :
    z ∈ insertStr x l ↔ z = x ∨ z ∈ l := by
  induction l with
  | nil => simp [insertStr]
  | cons y ys ih =>
    simp only [insertStr]
    split
    · simp
    · rw [List.mem_cons, ih, List.mem_cons]
      tauto

theorem mem_sortStrings {z : String} {l : List String} :
    z ∈ sortStrings l ↔ z ∈ l := by
  induction l with
  | nil => simp [sortStrings]
  | cons x xs ih =>
    rw [show sortStrings (x :: xs) = insertStr x (sortStrings xs) from rfl,
      mem_insertStr, ih, List.mem_cons]

theorem foldl_dedup_mem {α : Type} [DecidableEq α] (l : List α) :
    ∀ (acc : List α) (z : α),
      (z ∈ l.foldl (fun acc s => if s ∈ acc then acc else acc ++ [s]) acc ↔
        z ∈ acc ∨ z ∈ l) := by
  induction l with
  | nil => simp
  | cons x xs ih =>
    intro acc z
    rw [List.foldl_cons]
    by_cases hx : x ∈ acc
    · rw [if_pos hx, ih, List.mem_cons]
      constructor
      · rintro (h | h)
        · exact Or.inl h
        · exact Or.inr (Or.inr h)
      · rintro (h | rfl | h)
        · exact Or.inl h
        · exact Or.inl hx
        · exact Or.inr h
    · rw [if_neg hx, ih]
      simp only [List.mem_append, List.mem_singleton, List.mem_cons]
      tauto

theorem foldl_dedup_nodup {α : Type} [DecidableEq α] (l : List α) :
    ∀ (acc : List α), acc.Nodup →
      (l.foldl (fun acc s => if s ∈ acc then acc else acc ++ [s]) acc).Nodup := by
  induction l with
  | nil => intro acc h; simpa using h
  | cons x xs ih =>
    intro acc h
    rw [List.foldl_cons]
    by_cases hx : x ∈ acc
    · rw [if_pos hx]; exact ih _ h
    · rw [if_neg hx]
      exact ih _ (by simp [List.nodup_append, h, hx])

theorem mem_dedupList {α : Type} [DecidableEq α] {z : α} {l : List α} :
    z ∈ dedupList l ↔ z ∈ l := by
  unfold dedupList
  rw [foldl_dedup_mem]
  simp

theorem dedupList_nodup {α : Type} [DecidableEq α] (l : List α) :
    (dedupList l).Nodup := by
  unfold dedupList
  exact foldl_dedup_nodup l [] List.nodup_nil

theorem mem_dedupStrings {z : String} {l : List String} :
    z ∈ dedupStrings l ↔ z ∈ l := by
  unfold dedupStrings
  exact mem_dedupList

theorem mem_mergeKcs {z : String} {a b : List String} :
    z ∈ mergeKcs a b ↔ z ∈ a ∨ z ∈ b := by
  unfold mergeKcs
  rw [mem_sortStrings, mem_dedupStrings, List.mem_append]

theorem mem_dedupKeys {z : String × String × String} {l : List (String × String × String)} :
    z ∈ dedupKeys l ↔ z ∈ l := by
  unfold dedupKeys
  exact mem_dedupList

theorem dedupKeys_nodup (l : List (String × String × String)) : (dedupKeys l).Nodup :=
  dedupList_nodup l

theorem dedupKeys_append_one (l : List (String × String × String))
    (k : String × String × String) :
    dedupKeys (l ++ [k]) =
      if k ∈ dedupKeys l then dedupKeys l else dedupKeys l ++ [k] := by
  unfold dedupKeys dedupList
  rw [List.foldl_append]
  simp only [List.foldl_cons, List.foldl_nil]
  split
  · rfl
  · rfl

theorem rowKey_upsert_update (x r : Row) :
    rowKey { x with kcs := mergeKcs x.kcs r.kcs } = rowKey x := rfl

theorem keys_upsertRow (acc : List Row) (r : Row) :
    (upsertRow acc r).map rowKey =
      if rowKey r ∈ acc.map rowKey then acc.map rowKey
      else acc.map rowKey ++ [rowKey r] := by
  induction acc with
  | nil => simp [upsertRow]
  | cons x xs ih =>
    simp only [upsertRow]
    by_cases h : rowKey x = rowKey r
    · rw [if_pos h]
      simp [rowKey_upsert_update, h]
    · rw [if_neg h, List.map_cons, ih, List.map_cons]
      by_cases h2 : rowKey r ∈ xs.map rowKey
      · rw [if_pos h2, if_pos (by simp [h2])]
      · rw [if_neg h2, if_neg (by simp [List.mem_cons, h2]; exact fun hh => h hh.symm)]
        simp

theorem upsertRow_not_mem (acc : List Row) (r : Row)
    (h : rowKey r ∉ acc.map rowKey) : upsertRow acc r = acc ++ [r] := by
  induction acc with
  | nil => simp [upsertRow]
  | cons x xs ih =>
    simp only [List.map_cons, List.mem_cons] at h
    push_neg at h
    simp only [upsertRow]
    rw [if_neg (fun hh => h.1 hh.symm), ih h.2]
    simp

theorem upsertRow_mem_decomp (acc : List Row) (r : Row)
    (h : rowKey r ∈ acc.map rowKey) :
    ∃ a1 x a2, acc = a1 ++ x :: a2 ∧ rowKey x = rowKey r ∧
      rowKey r ∉ a1.map rowKey ∧
      upsertRow acc r = a1 ++ ({ x with kcs := mergeKcs x.kcs r.kcs } :: a2) := by
  induction acc with
  | nil => simp at h
  | cons y ys ih =>
    by_cases hy : rowKey y = rowKey r
    · exact ⟨[], y, ys, by simp, hy, by simp, by simp [upsertRow, if_pos hy]⟩
    · have hmem : rowKey r ∈ ys.map rowKey := by
        simp only [List.map_cons, List.mem_cons] at h
        rcases h with h | h
        · exact absurd h.symm hy
        · exact h
      obtain ⟨a1, x, a2, hacc, hxr, hna, hup⟩ := ih hmem
      refine ⟨y :: a1, x, a2, by rw [hacc]; rfl, hxr, ?_, ?_⟩
      · simp only [List.map_cons, List.mem_cons]
        push_neg
        exact ⟨fun hh => hy hh.symm, hna⟩
      · simp only [upsertRow]
        rw [if_neg hy, hup]
        rfl

theorem compact_go_spec : ∀ (rows pre acc : List Row),
    acc.map rowKey = dedupKeys (pre.map rowKey) →
    (∀ r ∈ acc, ∃ r0, pre.find? (fun x => decide (rowKey x = rowKey r)) = some r0 ∧
       r.label = r0.label ∧ r.sig = r0.sig) →
    (∀ r ∈ acc, ∀ s, s ∈ r.kcs ↔ ∃ x ∈ pre, rowKey x = rowKey r ∧ s ∈ x.kcs) →
    ((rows.foldl upsertRow acc).map rowKey = dedupKeys ((pre ++ rows).map rowKey) ∧
     (∀ r ∈ rows.foldl upsertRow acc, ∃ r0,
        (pre ++ rows).find? (fun x => decide (rowKey x = rowKey r)) = some r0 ∧
        r.label = r0.label ∧ r.sig = r0.sig) ∧
     (∀ r ∈ rows.foldl upsertRow acc, ∀ s,
        s ∈ r.kcs ↔ ∃ x ∈ pre ++ rows, rowKey x = rowKey r ∧ s ∈ x.kcs))
  | [], pre, acc, h1, h2, h3 => by
    simpa using ⟨h1, h2, h3⟩
  | r :: rs, pre, acc, h1, h2, h3 => by
    have hstep :
        (upsertRow acc r).map rowKey = dedupKeys ((pre ++ [r]).map rowKey) ∧
        (∀ r2 ∈ upsertRow acc r, ∃ r0,
           (pre ++ [r]).find? (fun x => decide (rowKey x = rowKey r2)) = some r0 ∧
           r2.label = r0.label ∧ r2.sig = r0.sig) ∧
        (∀ r2 ∈ upsertRow acc r, ∀ s,
           s ∈ r2.kcs ↔ ∃ x ∈ pre ++ [r], rowKey x = rowKey r2 ∧ s ∈ x.kcs) := by
      by_cases hmem : rowKey r ∈ acc.map rowKey
      · -- the key is already present: the first matching entry merges kc names
        obtain ⟨a1, x, a2, hacc, hxr, hna1, hup⟩ := upsertRow_mem_decomp acc r hmem
        have hnd : (acc.map rowKey).Nodup := h1 ▸ dedupKeys_nodup _
        have hna2 : rowKey r ∉ a2.map rowKey := by
          rw [hacc] at hnd
          simp only [List.map_append, List.map_cons, List.nodup_append] at hnd
          have := (List.nodup_cons.mp hnd.2.1).1
          rw [hxr] at this
          exact this
        have hrPre : rowKey r ∈ dedupKeys (pre.map rowKey) := h1 ▸ hmem
        refine ⟨?_, ?_, ?_⟩
        · rw [hup, List.map_append, List.map_cons, rowKey_upsert_update,
            List.map_append, show List.map rowKey [r] = [rowKey r] from rfl,
            dedupKeys_append_one, if_pos hrPre, ← h1, hacc]
          simp
        · intro r2 hr2
          rw [hup] at hr2
          rcases List.mem_append.mp hr2 with h | h
          · obtain ⟨r0, hf, hl, hs⟩ := h2 r2 (by rw [hacc]; exact List.mem_append_left _ h)
            exact ⟨r0, find?_append_some hf, hl, hs⟩
          · rcases List.mem_cons.mp h with rfl | h
            · obtain ⟨r0, hf, hl, hs⟩ := h2 x (by rw [hacc]; simp)
              exact ⟨r0, find?_append_some hf, hl, hs⟩
            · obtain ⟨r0, hf, hl, hs⟩ := h2 r2 (by rw [hacc]; simp [h])
              exact ⟨r0, find?_append_some hf, hl, hs⟩
        · intro r2 hr2 s
          rw [hup] at hr2
          have hext : ∀ r3 ∈ acc, rowKey r3 ≠ rowKey r → ∀ s2,
              (s2 ∈ r3.kcs ↔ ∃ x2 ∈ pre ++ [r], rowKey x2 = rowKey r3 ∧ s2 ∈ x2.kcs) := by
            intro r3 hr3 hne s2
            rw [h3 r3 hr3 s2]
            constructor
            · rintro ⟨x2, hx2, hk, hsx⟩
              exact ⟨x2, List.mem_append_left _ hx2, hk, hsx⟩
            · rintro ⟨x2, hx2, hk, hsx⟩
              rcases List.mem_append.mp hx2 with h | h
              · exact ⟨x2, h, hk, hsx⟩
              · rcases List.mem_singleton.mp h with rfl
                exact absurd hk.symm hne
          rcases List.mem_append.mp hr2 with h | h
          · refine hext r2 (by rw [hacc]; exact List.mem_append_left _ h) ?_ s
            intro hc
            exact hna1 (hc ▸ List.mem_map_of_mem rowKey h)
          · rcases List.mem_cons.mp h with rfl | h
            · -- the merged entry
              have hx3 : ∀ s2, s2 ∈ x.kcs ↔ ∃ x2 ∈ pre, rowKey x2 = rowKey x ∧ s2 ∈ x2.kcs :=
                h3 x (by rw [hacc]; simp)
              constructor
              · intro hs
                rcases mem_mergeKcs.mp hs with hs | hs
                · obtain ⟨x2, hx2, hk, hsx⟩ := (hx3 s).mp hs
                  exact ⟨x2, List.mem_append_left _ hx2, hk, hsx⟩
                · exact ⟨r, List.mem_append_right _ (by simp), hxr.symm, hs⟩
              · rintro ⟨x2, hx2, hk, hsx⟩
                rcases List.mem_append.mp hx2 with h | h
                · exact mem_mergeKcs.mpr (Or.inl ((hx3 s).mpr ⟨x2, h, hk, hsx⟩))
                · rcases List.mem_singleton.mp h with rfl
                  exact mem_mergeKcs.mpr (Or.inr hsx)
            · refine hext r2 (by rw [hacc]; simp [h]) ?_ s
              intro hc
              exact hna2 (hc ▸ List.mem_map_of_mem rowKey h)
      · -- a fresh key: the row is appended unchanged
        have hup := upsertRow_not_mem acc r hmem
        have hPreNot : rowKey r ∉ pre.map rowKey := by
          intro hc
          exact hmem (by rw [h1]; exact mem_dedupKeys.mpr hc)
        have hnone : pre.find? (fun x => decide (rowKey x = rowKey r)) = none :=
          List.find?_eq_none.mpr (fun x hx => by
            simp only [decide_eq_true_eq]
            exact fun he => hPreNot (he ▸ List.mem_map_of_mem rowKey hx))
        refine ⟨?_, ?_, ?_⟩
        · rw [hup, List.map_append, h1, List.map_append,
            show List.map rowKey [r] = [rowKey r] from rfl, dedupKeys_append_one,
            if_neg (fun hc => hPreNot (mem_dedupKeys.mp hc))]
        · intro r2 hr2
          rw [hup] at hr2
          rcases List.mem_append.mp hr2 with h | h
          · obtain ⟨r0, hf, hl, hs⟩ := h2 r2 h
            exact ⟨r0, find?_append_some hf, hl, hs⟩
          · rcases List.mem_singleton.mp h with rfl
            refine ⟨r2, ?_, rfl, rfl⟩
            rw [find?_append_none hnone]
            simp [List.find?]
        · intro r2 hr2 s
          rw [hup] at hr2
          rcases List.mem_append.mp hr2 with h | h
          · rw [h3 r2 h s]
            have hne : rowKey r2 ≠ rowKey r := by
              intro hc
              exact hmem (hc ▸ List.mem_map_of_mem rowKey h)
            constructor
            · rintro ⟨x2, hx2, hk, hsx⟩
              exact ⟨x2, List.mem_append_left _ hx2, hk, hsx⟩
            · rintro ⟨x2, hx2, hk, hsx⟩
              rcases List.mem_append.mp hx2 with h2m | h2m
              · exact ⟨x2, h2m, hk, hsx⟩
              · rcases List.mem_singleton.mp h2m with rfl
                exact absurd hk (fun hh => hne hh.symm)
          · rcases List.mem_singleton.mp h with rfl
            constructor
            · intro hs
              exact ⟨r2, List.mem_append_right _ (by simp), rfl, hs⟩
            · rintro ⟨x2, hx2, hk, hsx⟩
              rcases List.mem_append.mp hx2 with h2m | h2m
              · exact absurd (hk ▸ List.mem_map_of_mem rowKey h2m) hPreNot
              · rcases List.mem_singleton.mp h2m with rfl
                exact hsx
    obtain ⟨h1', h2', h3'⟩ := hstep
    have hrec := compact_go_spec rs (pre ++ [r]) (upsertRow acc r) h1' h2' h3'
    simpa [List.append_assoc] using hrec

theorem foldl_upsert_of_nodup : ∀ (rows acc : List Row),
    ((acc ++ rows).map rowKey).Nodup → rows.foldl upsertRow acc = acc ++ rows
  | [], acc, _ => by simp
  | r :: rs, acc, h => by
    have hnotin : rowKey r ∉ acc.map rowKey := by
      rw [List.map_append, List.map_cons, List.nodup_append] at h
      exact fun hc => h.2.2 hc (by simp)
    rw [List.foldl_cons, upsertRow_not_mem acc r hnotin,
      foldl_upsert_of_nodup rs (acc ++ [r]) (by simpa using h)]
    simp

/-- C7: `_compact_rows` is idempotent, preserves the first-occurrence order
of the (command id, trigger value, key-modifier) keys, keeps the first-seen
display label and signature for each key, and merges the contributing
layer-name sets by set union. -/
theorem claim_C7_compact_rows (rows : List Row) :
    _compact_rows (_compact_rows rows) = _compact_rows rows ∧
    (_compact_rows rows).map rowKey = dedupKeys (rows.map rowKey) ∧
    (∀ r ∈ _compact_rows rows, ∃ r0,
       rows.find? (fun x => decide (rowKey x = rowKey r)) = some r0 ∧
       r.label = r0.label ∧ r.sig = r0.sig) ∧
    (∀ r ∈ _compact_rows rows, ∀ s,
       s ∈ r.kcs ↔ ∃ x ∈ rows, rowKey x = rowKey r ∧ s ∈ x.kcs) := by
  have h := compact_go_spec rows [] [] rfl
    (by intro r hr; simp at hr) (by intro r hr; simp at hr)
  simp only [List.nil_append] at h
  obtain ⟨h1, h2, h3⟩ := h
  refine ⟨?_, h1, h2, h3⟩
  have hnd : ((_compact_rows rows).map rowKey).Nodup := by
    unfold _compact_rows
    exact h1 ▸ dedupKeys_nodup _
  have hid := foldl_upsert_of_nodup (_compact_rows rows) [] (by simpa using hnd)
  simpa [_compact_rows] using hid

-- ---- C5: disabled-binding suppression in the two match functions ----

theorem sig_mem_upsertSig (acc : List Gather) (s0 : Sig5) (km : Keymap)
    (kmi : KeymapItem) (n : String) (s : Sig5) :
    s ∈ (upsertSig acc s0 km kmi n).map Gather.sig ↔
      s ∈ acc.map Gather.sig ∨ s = s0 := by
  induction acc with
  | nil => simp [upsertSig, eq_comm]
  | cons g gs ih =>
    simp only [upsertSig]
    by_cases h : g.sig = s0
    · rw [if_pos h]
      simp only [List.map_cons, List.mem_cons]
      constructor
      · rintro (hh | hh)
        · exact Or.inl (Or.inl hh)
        · exact Or.inl (Or.inr hh)
      · rintro ((hh | hh) | rfl)
        · exact Or.inl hh
        · exact Or.inr hh
        · exact Or.inl (h ▸ rfl)
    · rw [if_neg h]
      simp only [List.map_cons, List.mem_cons, ih]
      tauto

theorem sig_mem_items_go (p : Keymap → KeymapItem → Bool) (km : Keymap) (n : String) :
    ∀ (items : List KeymapItem) (acc : List Gather) (s : Sig5),
      (s ∈ (items.foldl (fun a kmi =>
          if p km kmi then upsertSig a (_sig_for_kmi km kmi) km kmi n else a) acc).map
            Gather.sig ↔
        s ∈ acc.map Gather.sig ∨
          ∃ kmi ∈ items, p km kmi = true ∧ _sig_for_kmi km kmi = s)
  | [], acc, s => by simp
  | kmi :: rest, acc, s => by
    rw [List.foldl_cons]
    by_cases hp : p km kmi = true
    · rw [if_pos hp, sig_mem_items_go p km n rest _ s, sig_mem_upsertSig]
      constructor
      · rintro ((hh | rfl) | ⟨k2, hk2, hpk, hsk⟩)
        · exact Or.inl hh
        · exact Or.inr ⟨kmi, by simp, hp, rfl⟩
        · exact Or.inr ⟨k2, by simp [hk2], hpk, hsk⟩
      · rintro (hh | ⟨k2, hk2, hpk, hsk⟩)
        · exact Or.inl (Or.inl hh)
        · rcases List.mem_cons.mp hk2 with rfl | hk2
          · exact Or.inl (Or.inr hsk.symm)
          · exact Or.inr ⟨k2, hk2, hpk, hsk⟩
    · rw [if_neg hp, sig_mem_items_go p km n rest _ s]
      constructor
      · rintro (hh | ⟨k2, hk2, hpk, hsk⟩)
        · exact Or.inl hh
        · exact Or.inr ⟨k2, by simp [hk2], hpk, hsk⟩
      · rintro (hh | ⟨k2, hk2, hpk, hsk⟩)
        · exact Or.inl hh
        · rcases List.mem_cons.mp hk2 with rfl | hk2
          · exact absurd hpk hp
          · exact Or.inr ⟨k2, hk2, hpk, hsk⟩

theorem sig_mem_scanKeymaps (kmP : Keymap → Bool) (itemP : Keymap → KeymapItem → Bool)
    (n : String) :
    ∀ (kms : List Keymap) (acc : List Gather) (s : Sig5),
      (s ∈ (scanKeymaps kmP itemP n acc kms).map Gather.sig ↔
        s ∈ acc.map Gather.sig ∨
          ∃ km ∈ kms, kmP km = true ∧
            ∃ kmi ∈ km.keymap_items, itemP km kmi = true ∧ _sig_for_kmi km kmi = s)
  | [], acc, s => by simp [scanKeymaps]
  | km :: rest, acc, s => by
    show (s ∈ (scanKeymaps kmP itemP n _ rest).map Gather.sig ↔ _)
    rw [sig_mem_scanKeymaps kmP itemP n rest _ s]
    dsimp only
    by_cases hp : kmP km = true
    · rw [show (if kmP km then scanItems itemP km n acc else acc)
          = scanItems itemP km n acc from if_pos hp]
      unfold scanItems
      rw [sig_mem_items_go]
      constructor
      · rintro ((hh | ⟨kmi, hk, hik, hsk⟩) | ⟨km2, hm2, hp2, rest2⟩)
        · exact Or.inl hh
        · exact Or.inr ⟨km, by simp, hp, kmi, hk, hik, hsk⟩
        · exact Or.inr ⟨km2, by simp [hm2], hp2, rest2⟩
      · rintro (hh | ⟨km2, hm2, hp2, kmi, hk, hik, hsk⟩)
        · exact Or.inl (Or.inl hh)
        · rcases List.mem_cons.mp hm2 with rfl | hm2
          · exact Or.inl (Or.inr ⟨kmi, hk, hik, hsk⟩)
          · exact Or.inr ⟨km2, hm2, hp2, kmi, hk, hik, hsk⟩
    · rw [show (if kmP km then scanItems itemP km n acc else acc) = acc from if_neg hp]
      constructor
      · rintro (hh | ⟨km2, hm2, hp2, rest2⟩)
        · exact Or.inl hh
        · exact Or.inr ⟨km2, by simp [hm2], hp2, rest2⟩
      · rintro (hh | ⟨km2, hm2, hp2, rest2⟩)
        · exact Or.inl hh
        · rcases List.mem_cons.mp hm2 with rfl | hm2
          · exact absurd hp2 hp
          · exact Or.inr ⟨km2, hm2, hp2, rest2⟩

theorem sig_mem_scanKcs (kmP : Keymap → Bool) (itemP : Keymap → KeymapItem → Bool) :
    ∀ (kcs : List Keyconfig) (acc : List Gather) (s : Sig5),
      (s ∈ (scanKcs kmP itemP acc kcs).map Gather.sig ↔
        s ∈ acc.map Gather.sig ∨
          ∃ kc ∈ kcs, ∃ km ∈ kc.keymaps, kmP km = true ∧
            ∃ kmi ∈ km.keymap_items, itemP km kmi = true ∧ _sig_for_kmi km kmi = s)
  | [], acc, s => by simp [scanKcs]
  | kc :: rest, acc, s => by
    show (s ∈ (scanKcs kmP itemP _ rest).map Gather.sig ↔ _)
    rw [sig_mem_scanKcs kmP itemP rest _ s]
    dsimp only
    rw [sig_mem_scanKeymaps]
    constructor
    · rintro ((hh | ⟨km, hm, hp2, rest2⟩) | ⟨kc2, hc2, rest3⟩)
      · exact Or.inl hh
      · exact Or.inr ⟨kc, by simp, km, hm, hp2, rest2⟩
      · exact Or.inr ⟨kc2, by simp [hc2], rest3⟩
    · rintro (hh | ⟨kc2, hc2, rest3⟩)
      · exact Or.inl (Or.inl hh)
      · rcases List.mem_cons.mp hc2 with rfl | hc2
        · exact Or.inl (Or.inr rest3)
        · exact Or.inr ⟨kc2, hc2, rest3⟩

theorem rowSigs_finalizeRows (gs : List Gather) :
    rowSigs (finalizeRows gs) = gs.map Gather.sig := by
  simp [rowSigs, finalizeRows, List.map_map, Function.comp]

/-- C5: full characterization of the signatures returned by the two scan
functions.  A signature appears in the output exactly when some walked entry
passes every filter - in particular the full-binding-signature disabled
mask: an entry whose `_full_binding_sig` is in the disabled set never
contributes even when key and modifiers match, while an entry of the same
command id whose full signature is not disabled does contribute. -/
theorem claim_C5_disabled_suppression (wm : WM) (key_label editor : String)
    (ctrl shift alt cmd hm : Bool) (s : Sig5) :
    ((s ∈ rowSigs (get_keymap_matches_in_editor wm key_label editor ctrl shift alt cmd hm) ↔
      ∃ kc ∈ _iter_all_keyconfigs wm,
        ∃ km ∈ kc.keymaps,
          ((hm = false ∨ km.is_modal = false) ∧ is_relevant_keymap km editor = true) ∧
            ∃ kmi ∈ km.keymap_items,
              ((((kmi.active = true ∧ kmi.type ∈ normalize_key_types key_label) ∧
                      _modifiers_match kmi ctrl shift alt cmd = true) ∧
                    _full_binding_sig km kmi ∉ _collect_disabled_binding_sigs wm) ∧
                  (¬editor = "UV" ∨ uvStrictOk kmi = true)) ∧
                _sig_for_kmi km kmi = s) ∧
     (s ∈ rowSigs (get_global_matches wm key_label ctrl shift alt cmd hm) ↔
      ∃ kc ∈ _iter_all_keyconfigs wm,
        ∃ km ∈ kc.keymaps,
          ((hm = false ∨ km.is_modal = false) ∧
              (pyOr km.space_type "EMPTY" = "EMPTY" ∨ pyOr km.space_type "EMPTY" = "SCREEN")) ∧
            ∃ kmi ∈ km.keymap_items,
              (((kmi.active = true ∧ kmi.type ∈ normalize_key_types key_label) ∧
                    _modifiers_match kmi ctrl shift alt cmd = true) ∧
                  _full_binding_sig km kmi ∉ _collect_disabled_binding_sigs wm) ∧
                _sig_for_kmi km kmi = s)) := by
  constructor
  · unfold get_keymap_matches_in_editor
    rw [rowSigs_finalizeRows, sig_mem_scanKcs]
    simp only [List.map_nil, List.not_mem_nil, false_or, editorKmPred, editorItemPred,
      Bool.and_eq_true, Bool.not_eq_true', Bool.and_eq_false_iff, Bool.or_eq_true,
      decide_eq_true_eq, decide_eq_false_iff_not]
  · unfold get_global_matches
    rw [rowSigs_finalizeRows, sig_mem_scanKcs]
    simp only [List.map_nil, List.not_mem_nil, false_or, globalKmPred, globalItemPred,
      Bool.and_eq_true, Bool.not_eq_true', Bool.and_eq_false_iff, Bool.or_eq_true,
      decide_eq_true_eq, decide_eq_false_iff_not]

-- ---- C9: atomicity of the deactivate operator ----

theorem disableInItems_none_iff (km : Keymap) (a : DisableArgs) :
    ∀ items : List KeymapItem, disableInItems km a items = none ↔
      ∀ it ∈ items, _sig_for_kmi km it ≠ targetSig a
  | [] => by simp [disableInItems]
  | it :: rest => by
    simp only [disableInItems]
    by_cases h : _sig_for_kmi km it = targetSig a
    · rw [if_pos h]
      simp only [reduceCtorEq, false_iff, not_forall]
      exact ⟨it, by simp, fun hne => hne h⟩
    · rw [if_neg h, Option.map_eq_none', disableInItems_none_iff km a rest]
      constructor
      · intro hr it2 hit2
        rcases List.mem_cons.mp hit2 with rfl | hit2
        · exact h
        · exact hr it2 hit2
      · intro hr it2 hit2
        exact hr it2 (List.mem_cons_of_mem _ hit2)

theorem disableInItems_some_decomp (km : Keymap) (a : DisableArgs) :
    ∀ (items its2 : List KeymapItem), disableInItems km a items = some its2 →
      ∃ p it q, items = p ++ it :: q ∧ _sig_for_kmi km it = targetSig a ∧
        its2 = p ++ ({ it with active := false } :: q)
  | [], its2, h => by simp [disableInItems] at h
  | it :: rest, its2, h => by
    simp only [disableInItems] at h
    by_cases hs : _sig_for_kmi km it = targetSig a
    · rw [if_pos hs] at h
      exact ⟨[], it, rest, by simp, hs, by simpa using h.symm⟩
    · rw [if_neg hs] at h
      rcases Option.map_eq_some'.mp h with ⟨r, hr, hits⟩
      obtain ⟨p, it2, q, he, hsig, hres⟩ := disableInItems_some_decomp km a rest r hr
      refine ⟨it :: p, it2, q, by rw [he]; rfl, hsig, ?_⟩
      rw [← hits, hres]
      rfl

theorem disableInKms_some_decomp (a : DisableArgs) :
    ∀ (kms kms2 : List Keymap), disableInKms a kms = some kms2 →
      ∃ p km q its2, kms = p ++ km :: q ∧ km.name = a.km_name ∧
        disableInItems km a km.keymap_items = some its2 ∧
        kms2 = p ++ ({ km with keymap_items := its2 } :: q)
  | [], kms2, h => by simp [disableInKms] at h
  | km :: rest, kms2, h => by
    simp only [disableInKms] at h
    by_cases hn : km.name = a.km_name
    · rw [if_pos hn] at h
      rcases Option.map_eq_some'.mp h with ⟨its2, hits, hkms⟩
      exact ⟨[], km, rest, its2, by simp, hn, hits, by rw [← hkms]; rfl⟩
    · rw [if_neg hn] at h
      rcases Option.map_eq_some'.mp h with ⟨r, hr, hkms⟩
      obtain ⟨p, km2, q, its2, he, hname, hits, hres⟩ := disableInKms_some_decomp a rest r hr
      refine ⟨km :: p, km2, q, its2, by rw [he]; rfl, hname, hits, ?_⟩
      rw [← hkms, hres]
      rfl

theorem disableInKcs_some_decomp (a : DisableArgs) :
    ∀ (kcs kcs2 : List Keyconfig), disableInKcs a kcs = some kcs2 →
      ∃ p kc q kms2, kcs = p ++ kc :: q ∧ kc.name = a.kc_name ∧
        disableInKms a kc.keymaps = some kms2 ∧
        kcs2 = p ++ ({ kc with keymaps := kms2 } :: q)
  | [], kcs2, h => by simp [disableInKcs] at h
  | kc :: rest, kcs2, h => by
    simp only [disableInKcs] at h
    by_cases hn : kc.name = a.kc_name
    · rw [if_pos hn] at h
      rcases Option.map_eq_some'.mp h with ⟨kms2, hkms, hkcs⟩
      exact ⟨[], kc, rest, kms2, by simp, hn, hkms, by rw [← hkcs]; rfl⟩
    · rw [if_neg hn] at h
      rcases Option.map_eq_some'.mp h with ⟨r, hr, hkcs⟩
      obtain ⟨p, kc2, q, kms2, he, hname, hkms, hres⟩ := disableInKcs_some_decomp a rest r hr
      refine ⟨kc :: p, kc2, q, kms2, by rw [he]; rfl, hname, hkms, ?_⟩
      rw [← hkcs, hres]
      rfl

theorem hasTarget_of_disableInKcs_some (a : DisableArgs) (kcs kcs2 : List Keyconfig)
    (h : disableInKcs a kcs = some kcs2) : HasTarget kcs a := by
  obtain ⟨p, kc, q, kms2, he, hname, hkms, _⟩ := disableInKcs_some_decomp a kcs kcs2 h
  obtain ⟨pk, km, qk, its2, hek, hnamek, hits, _⟩ :=
    disableInKms_some_decomp a kc.keymaps kms2 hkms
  obtain ⟨pi, it, qi, hei, hsig, _⟩ :=
    disableInItems_some_decomp km a km.keymap_items its2 hits
  exact ⟨kc, by rw [he]; simp, hname,
    km, by rw [hek]; simp, hnamek,
    it, by rw [hei]; simp, hsig⟩

theorem disableInItems_isSome (km : Keymap) (a : DisableArgs) (items : List KeymapItem)
    (h : ∃ it ∈ items, _sig_for_kmi km it = targetSig a) :
    ∃ its2, disableInItems km a items = some its2 := by
  cases hd : disableInItems km a items with
  | none =>
    obtain ⟨it, hit, hsig⟩ := h
    exact absurd hsig ((disableInItems_none_iff km a items).mp hd it hit)
  | some its2 => exact ⟨its2, rfl⟩

theorem disableInKms_isSome (a : DisableArgs) :
    ∀ kms : List Keymap, (kms.map Keymap.name).Nodup →
      (∃ km ∈ kms, km.name = a.km_name ∧
        ∃ it ∈ km.keymap_items, _sig_for_kmi km it = targetSig a) →
      ∃ kms2, disableInKms a kms = some kms2
  | [], _, h => by simp at h
  | km :: rest, hnd, h => by
    simp only [disableInKms]
    by_cases hn : km.name = a.km_name
    · rw [if_pos hn]
      obtain ⟨km2, hm2, hname2, hit⟩ := h
      rcases List.mem_cons.mp hm2 with rfl | hm2
      · obtain ⟨its2, hits⟩ := disableInItems_isSome km2 a km2.keymap_items hit
        exact ⟨_, by rw [hits]; rfl⟩
      · exfalso
        have hmem : a.km_name ∈ rest.map Keymap.name :=
          hname2 ▸ List.mem_map_of_mem Keymap.name hm2
        rw [List.map_cons, List.nodup_cons] at hnd
        exact hnd.1 (hn ▸ hmem)
    · rw [if_neg hn]
      obtain ⟨km2, hm2, hname2, hit⟩ := h
      rcases List.mem_cons.mp hm2 with rfl | hm2
      · exact absurd hname2 hn
      · obtain ⟨r, hr⟩ := disableInKms_isSome a rest
          (by rw [List.map_cons, List.nodup_cons] at hnd; exact hnd.2)
          ⟨km2, hm2, hname2, hit⟩
        exact ⟨_, by rw [hr]; rfl⟩

theorem disableInKcs_isSome (a : DisableArgs) :
    ∀ kcs : List Keyconfig, (kcs.map Keyconfig.name).Nodup →
      (∀ kc ∈ kcs, (kc.keymaps.map Keymap.name).Nodup) →
      HasTarget kcs a →
      ∃ kcs2, disableInKcs a kcs = some kcs2
  | [], _, _, h => by simp [HasTarget] at h
  | kc :: rest, hnd, hka, h => by
    simp only [disableInKcs]
    by_cases hn : kc.name = a.kc_name
    · rw [if_pos hn]
      obtain ⟨kc2, hc2, hname2, hrest⟩ := h
      rcases List.mem_cons.mp hc2 with rfl | hc2
      · obtain ⟨kms2, hkms⟩ := disableInKms_isSome a kc2.keymaps (hka kc2 (by simp)) hrest
        exact ⟨_, by rw [hkms]; rfl⟩
      · exfalso
        have hmem : a.kc_name ∈ rest.map Keyconfig.name :=
          hname2 ▸ List.mem_map_of_mem Keyconfig.name hc2
        rw [List.map_cons, List.nodup_cons] at hnd
        exact hnd.1 (hn ▸ hmem)
    · rw [if_neg hn]
      obtain ⟨kc2, hc2, hname2, hrest⟩ := h
      rcases List.mem_cons.mp hc2 with rfl | hc2
      · exact absurd hname2 hn
      · obtain ⟨r, hr⟩ := disableInKcs_isSome a rest
          (by rw [List.map_cons, List.nodup_cons] at hnd; exact hnd.2)
          (fun kc3 h3 => hka kc3 (List.mem_cons_of_mem _ h3))
          ⟨kc2, hc2, hname2, hrest⟩
        exact ⟨_, by rw [hr]; rfl⟩

/-- C9: the deactivate operator is atomic.  When no live entry matches the
requested signature it reports CANCELLED and changes neither the keyconfigs
nor the cache.  When a matching entry exists (under the host invariants
that keyconfig names, and keymap names within each keyconfig, are unique),
it reports FINISHED, flips exactly that entry's active flag to false, and
clears the whole cache before returning. -/
theorem claim_C9_disable_atomic (kcs : List Keyconfig) (cache : List (QKey × HiTable))
    (a : DisableArgs) :
    (¬ HasTarget kcs a →
      disable_keymap_item_execute kcs cache a = (OpStatus.CANCELLED, kcs, cache)) ∧
    ((kcs.map Keyconfig.name).Nodup →
     (∀ kc ∈ kcs, (kc.keymaps.map Keymap.name).Nodup) →
     HasTarget kcs a →
      ∃ p kc q pk km qk pi it qi,
        kcs = p ++ kc :: q ∧ kc.keymaps = pk ++ km :: qk ∧
        km.keymap_items = pi ++ it :: qi ∧
        kc.name = a.kc_name ∧ km.name = a.km_name ∧
        _sig_for_kmi km it = targetSig a ∧
        disable_keymap_item_execute kcs cache a =
          (OpStatus.FINISHED,
           p ++ { kc with keymaps := pk ++ { km with keymap_items :=
             pi ++ { it with active := false } :: qi } :: qk } :: q,
           [])) := by
  constructor
  · intro hno
    unfold disable_keymap_item_execute
    cases hd : disableInKcs a kcs with
    | none => rfl
    | some kcs2 => exact absurd (hasTarget_of_disableInKcs_some a kcs kcs2 hd) hno
  · intro hnd hka hht
    obtain ⟨kcs2, hd⟩ := disableInKcs_isSome a kcs hnd hka hht
    obtain ⟨p, kc, q, kms2, he, hname, hkms, hres⟩ := disableInKcs_some_decomp a kcs kcs2 hd
    obtain ⟨pk, km, qk, its2, hek, hnamek, hits, hresk⟩ :=
      disableInKms_some_decomp a kc.keymaps kms2 hkms
    obtain ⟨pi, it, qi, hei, hsig, hresi⟩ :=
      disableInItems_some_decomp km a km.keymap_items its2 hits
    refine ⟨p, kc, q, pk, km, qk, pi, it, qi, he, hek, hei, hname, hnamek, hsig, ?_⟩
    unfold disable_keymap_item_execute
    rw [hd, hres, hresk, hresi]

/-- Witness for C9: deactivating the Q binding in the fixture succeeds,
reports FINISHED and clears the cache. -/
theorem claim_C9_disable_atomic_witness :
    HasTarget exKcsDisable exArgsDisable ∧
    (disable_keymap_item_execute exKcsDisable exCacheDisable exArgsDisable).1
      = OpStatus.FINISHED ∧
    (disable_keymap_item_execute exKcsDisable exCacheDisable exArgsDisable).2.2 = [] := by
  obtain ⟨p, kc, q, pk, km, qk, pi, it, qi, _, _, _, _, _, _, hres⟩ :=
    (claim_C9_disable_atomic exKcsDisable exCacheDisable exArgsDisable).2
      (by decide) (by decide) (by decide)
  exact ⟨by decide, by rw [hres], by rw [hres]⟩

-- ---- C1: cache coherence ----

theorem tableGet_tableInsert (t : HiTable) (k k2 : String) (b : Bool) :
    tableGet (tableInsert t k b) k2 = if k = k2 then b else tableGet t k2 := by
  induction t with
  | nil => simp [tableInsert, tableGet]
  | cons p rest ih =>
    obtain ⟨k0, b0⟩ := p
    simp only [tableInsert]
    by_cases h0 : k0 = k
    · rw [if_pos h0]
      simp only [tableGet]
      by_cases h2 : k = k2
      · rw [if_pos h2, if_pos h2]
      · rw [if_neg h2, if_neg h2, if_neg (h0 ▸ h2)]
    · rw [if_neg h0]
      simp only [tableGet, ih]
      by_cases h2 : k0 = k2
      · rw [if_pos h2, if_neg (fun hk => h0 (h2.trans hk.symm)), if_pos h2]
      · rw [if_neg h2, if_neg h2]

theorem tableGet_foldl_insert (h : String → Bool) :
    ∀ (ks : List String) (t : HiTable) (l : String),
      tableGet (ks.foldl (fun t2 k => tableInsert t2 k (h k)) t) l =
        if l ∈ ks then h l else tableGet t l
  | [], t, l => by simp
  | k :: ks, t, l => by
    rw [List.foldl_cons, tableGet_foldl_insert h ks _ l]
    by_cases hks : l ∈ ks
    · rw [if_pos hks, if_pos (by simp [hks])]
    · rw [if_neg hks, tableGet_tableInsert]
      by_cases hk : k = l
      · rw [if_pos hk, if_pos (by simp [hk]), hk]
      · rw [if_neg hk, if_neg (by simp [List.mem_cons, hks]; exact fun hh => hk hh.symm)]

theorem tableGet_populate_table (wm : WM) (qk : QKey) (l : String)
    (hl : l ∈ cacheKeyList) :
    tableGet (populate_table wm qk) l = _highlight_for wm qk l := by
  unfold populate_table
  rw [tableGet_foldl_insert, if_pos hl]

theorem cacheLookup_mem (cache : List (QKey × HiTable)) (qk : QKey) (t : HiTable)
    (h : cacheLookup cache qk = some t) : (qk, t) ∈ cache := by
  induction cache with
  | nil => simp [cacheLookup] at h
  | cons p rest ih =>
    obtain ⟨k0, t0⟩ := p
    simp only [cacheLookup] at h
    by_cases h0 : k0 = qk
    · rw [if_pos h0] at h
      obtain rfl := Option.some.injEq _ _ ▸ h
      simp [h0]
    · rw [if_neg h0] at h
      exact List.mem_cons_of_mem _ (ih h)

theorem is_key_used_cached_hit (wm : WM) (qk : QKey) (st : CacheState) (l : String) (tbl : HiTable)
    (hv : is_cache_valid wm st = (true, st))
    (hcl : cacheLookup st.cache qk = some tbl) :
    is_key_used_cached wm qk st l = (tableGet tbl l, st) := by
  unfold is_key_used_cached
  rw [hv]
  dsimp only
  rw [if_pos rfl, hcl]

theorem is_key_used_cached_miss (wm : WM) (qk : QKey) (st : CacheState) (l : String)
    (hv : is_cache_valid wm st = (true, st))
    (hcl : cacheLookup st.cache qk = none) :
    is_key_used_cached wm qk st l =
      (tableGet (populate_table wm qk) l,
       { st with cache := st.cache ++ [(qk, populate_table wm qk)] }) := by
  unfold is_key_used_cached
  rw [hv]
  dsimp only
  rw [if_pos rfl, hcl]
  unfold populate_keymap_cache
  rw [hcl]

theorem is_key_used_cached_invalid (wm : WM) (qk : QKey) (st st2 : CacheState) (l : String)
    (hv : is_cache_valid wm st = (false, st2)) :
    is_key_used_cached wm qk st l =
      (tableGet (populate_table wm qk) l,
       { st2 with cache := [(qk, populate_table wm qk)] }) := by
  unfold is_key_used_cached
  rw [hv]
  dsimp only
  rw [if_neg (by simp)]
  dsimp only [cacheLookup]
  unfold populate_keymap_cache
  dsimp only [cacheLookup]
  rw [List.nil_append]

theorem is_key_used_cached_step (wms : List WM)
    (hinj : ∀ w1 ∈ wms, ∀ w2 ∈ wms,
      _compute_keyconfig_fingerprint w1 = _compute_keyconfig_fingerprint w2 → w1 = w2)
    (c : Ctx) (st : CacheState) (l : String)
    (hc : c.wm ∈ wms) (hinv : CacheInv wms st) :
    (l ∈ cacheKeyList →
      (is_key_used_cached c.wm c.qk st l).fst = _highlight_for c.wm c.qk l) ∧
    CacheInv wms (is_key_used_cached c.wm c.qk st l).snd := by
  by_cases hfp : st.lastFp = some (_compute_keyconfig_fingerprint c.wm)
  · have hv : is_cache_valid c.wm st = (true, st) := by
      unfold is_cache_valid
      rw [if_pos hfp]
    cases hcl : cacheLookup st.cache c.qk with
    | some tbl =>
      rw [is_key_used_cached_hit c.wm c.qk st l tbl hv hcl]
      dsimp only
      obtain ⟨w, hw, hwfp, htbl⟩ := hinv c.qk tbl (cacheLookup_mem _ _ _ hcl)
      have hww : w = c.wm := by
        apply hinj w hw c.wm hc
        rw [hfp] at hwfp
        exact Option.some.injEq _ _ ▸ hwfp
      refine ⟨fun hl => ?_, hinv⟩
      rw [htbl, hww]
      exact tableGet_populate_table _ _ _ hl
    | none =>
      rw [is_key_used_cached_miss c.wm c.qk st l hv hcl]
      dsimp only
      refine ⟨fun hl => tableGet_populate_table _ _ _ hl, ?_⟩
      intro qk2 tbl2 hmem
      rcases List.mem_append.mp hmem with hmem | hmem
      · exact hinv qk2 tbl2 hmem
      · rcases List.mem_singleton.mp hmem with heq
        injection heq with h1 h2
        subst h1
        exact ⟨c.wm, hc, hfp.symm, h2⟩
  · have hv : is_cache_valid c.wm st =
        (false, { st with lastFp := some (_compute_keyconfig_fingerprint c.wm) }) := by
      unfold is_cache_valid
      rw [if_neg hfp]
    rw [is_key_used_cached_invalid c.wm c.qk st _ l hv]
    dsimp only
    refine ⟨fun hl => tableGet_populate_table _ _ _ hl, ?_⟩
    intro qk2 tbl2 hmem
    rcases List.mem_singleton.mp hmem with heq
    injection heq with h1 h2
    subst h1
    exact ⟨c.wm, hc, rfl, h2⟩

theorem trace_sound (wms : List WM)
    (hinj : ∀ w1 ∈ wms, ∀ w2 ∈ wms,
      _compute_keyconfig_fingerprint w1 = _compute_keyconfig_fingerprint w2 → w1 = w2) :
    ∀ (evs : List Event) (c : Ctx) (st : CacheState),
      c.wm ∈ wms →
      (∀ c2 : Ctx, Event.setCfg c2 ∈ evs → c2.wm ∈ wms) →
      CacheInv wms st →
      traceOK c st evs = true
  | [], _, _, _, _, _ => rfl
  | Event.setCfg c2 :: evs, _, st, _, hevs, hinv =>
    trace_sound wms hinj evs c2 st (hevs c2 (by simp))
      (fun c3 h3 => hevs c3 (List.mem_cons_of_mem _ h3)) hinv
  | Event.query l :: evs, c, st, hc, hevs, hinv => by
    have hstep := is_key_used_cached_step wms hinj c st l hc hinv
    show ((!(decide (l ∈ cacheKeyList)) ||
        ((is_key_used_cached c.wm c.qk st l).fst == _highlight_for c.wm c.qk l)) &&
        traceOK c (is_key_used_cached c.wm c.qk st l).snd evs) = true
    rw [Bool.and_eq_true]
    constructor
    · by_cases hl : l ∈ cacheKeyList
      · rw [hstep.1 hl]
        simp
      · simp [hl]
    · exact trace_sound wms hinj evs c (is_key_used_cached c.wm c.qk st l).snd hc
        (fun c3 h3 => hevs c3 (List.mem_cons_of_mem _ h3)) hstep.2

/-- C1 as amended: along any trace of configuration changes interleaved with
queries, every cached `is_key_used_cached` answer for a rendered key equals
the direct uncached `_highlight_for` computation, PROVIDED the per-layer
entry-count fingerprint separates the configurations of the trace (no two
distinct configurations share a fingerprint).  The unrestricted claim fails:
see the counterexample with a count-preserving binding swap. -/
theorem claim_C1_cache_refinement (c0 : Ctx) (evs : List Event)
    (hinj : ∀ w1 ∈ wmsOfTrace c0 evs, ∀ w2 ∈ wmsOfTrace c0 evs,
      _compute_keyconfig_fingerprint w1 = _compute_keyconfig_fingerprint w2 → w1 = w2) :
    traceOK c0 initCacheState evs = true := by
  apply trace_sound (wmsOfTrace c0 evs) hinj evs c0 initCacheState
  · unfold wmsOfTrace
    exact List.mem_cons_self _ _
  · intro c2 h2
    unfold wmsOfTrace
    exact List.mem_cons_of_mem _ (List.mem_filterMap.mpr ⟨Event.setCfg c2, h2, rfl⟩)
  · intro qk tbl h
    simp [initCacheState] at h

/-- Witness for C1 as amended: a single-query trace on the Q configuration,
whose one-configuration fingerprint trivially separates. -/
theorem claim_C1_cache_refinement_witness :
    traceOK exCtxQ initCacheState [Event.query "Q"] = true :=
  claim_C1_cache_refinement exCtxQ [Event.query "Q"] (by
    intro w1 h1 w2 h2 _
    have hw : wmsOfTrace exCtxQ [Event.query "Q"] = [exWmQ] := rfl
    rw [hw, List.mem_singleton] at h1 h2
    rw [h1, h2])

/-- Counterexample for C1: swapping the single Window binding from the Q key
to the W key preserves the per-layer entry counts, so the fingerprint does
not change and the stale cache is reused - the cached answer for Q then
differs from the direct `_highlight_for` computation, refuting the claim for
arbitrary configuration-change sequences. -/
theorem claim_C1_counterexample :
    _compute_keyconfig_fingerprint exWmQ = _compute_keyconfig_fingerprint exWmW ∧
    exWmQ ≠ exWmW ∧
    traceOK exCtxQ initCacheState
      [Event.query "Q", Event.setCfg exCtxW, Event.query "Q"] = false :=
  ⟨by decide, by decide, by decide⟩
